import Mathlib

/-!
# Verification of the GBA emulator core against its specification

A shallow embedding, in Lean 4, of the parts of the `gba-emulator` C sources
that the specification claims speak about: the ARM7TDMI barrel shifter, the
memory bus with its BIOS-protection and rotation quirks, the CPU pipeline
step and IRQ entry, the timers with cascade chaining, the DMA controller,
the audio FIFO / timer-overflow path, and the per-frame PPU scheduler.

Machine integers are modelled as `Nat` with explicit masking (`&&& 0xFFFFFFFF`
for `uint32_t` arithmetic, `&&& 0xFFFF` for `uint16_t`, `&&& 0xFF` for
`uint8_t`) at exactly the points where the C types truncate.  Byte arrays
are modelled as functions `Nat → Nat` together with well-formedness
predicates bounding every byte below 256 where a theorem needs the bound.
-/

/- ====================================================================
   Common helpers (the C macros in common.h)
   ==================================================================== -/

/-- `BIT(v, i)` — bit `i` of `v` as a `Bool` (C: `((v) >> (i)) & 1`). -/
def cBit (v i : Nat) : Bool := v.testBit i

/-- Truncation to 32 bits, the effect of storing into a `uint32_t`. -/
def u32 (v : Nat) : Nat := v &&& 0xFFFFFFFF

/-- Truncation to 16 bits (`uint16_t`). -/
def u16 (v : Nat) : Nat := v &&& 0xFFFF

/-- Truncation to 8 bits (`uint8_t`). -/
def u8 (v : Nat) : Nat := v &&& 0xFF

theorem u32_eq_mod (v : Nat) : u32 v = v % 2 ^ 32 := by
  have h : (0xFFFFFFFF : Nat) = 2 ^ 32 - 1 := by norm_num
  rw [u32, h]; exact Nat.and_pow_two_sub_one_eq_mod v 32

theorem u16_eq_mod (v : Nat) : u16 v = v % 2 ^ 16 := by
  have h : (0xFFFF : Nat) = 2 ^ 16 - 1 := by norm_num
  rw [u16, h]; exact Nat.and_pow_two_sub_one_eq_mod v 16

theorem u8_eq_mod (v : Nat) : u8 v = v % 2 ^ 8 := by
  have h : (0xFF : Nat) = 2 ^ 8 - 1 := by norm_num
  rw [u8, h]; exact Nat.and_pow_two_sub_one_eq_mod v 8

theorem u32_lt (v : Nat) : u32 v < 2 ^ 32 := by
  rw [u32_eq_mod]; exact Nat.mod_lt _ (by norm_num)

theorem u32_of_lt {v : Nat} (h : v < 2 ^ 32) : u32 v = v := by
  rw [u32_eq_mod]; exact Nat.mod_eq_of_lt h

/- ====================================================================
   Barrel shifter — src/cpu/arm_instr.c, `barrel_shift`
   ==================================================================== -/

/-- Arithmetic shift right on a 32-bit quantity:
`(uint32_t)((int32_t)value >> amount)` for `0 < amount < 32`. -/
def asr32 (v n : Nat) : Nat :=
  if v.testBit 31 then u32 ((v >>> n) ||| (0xFFFFFFFF <<< (32 - n)))
  else v >>> n

/-- 32-bit rotate right as written in the C sources:
`(value >> amount) | (value << (32 - amount))` on `uint32_t`, `0 < amount < 32`. -/
def ror32 (v n : Nat) : Nat := u32 ((v >>> n) ||| (v <<< (32 - n)))

/-- All-ones or all-zeros by the sign bit: `BIT(value,31) ? 0xFFFFFFFF : 0`. -/
def signFill (v : Nat) : Nat := if v.testBit 31 then 0xFFFFFFFF else 0

/-- `barrel_shift` from src/cpu/arm_instr.c.  Returns the shifted value
together with the carry-out; `carry` is the incoming C flag (the C code
passes it by pointer and leaves it untouched on the pass-through paths).
`reg_shift` is true when the amount came from a register (bit 4 set). -/
def barrel_shift (value : Nat) (shift_type : Nat) (amount : Nat)
    (carry : Bool) (reg_shift : Bool) : Nat × Bool :=
  if reg_shift then
    -- Register-specified amount: amount == 0 passes value and carry through.
    if amount = 0 then (value, carry)
    else if shift_type = 0 then      -- LSL
      if amount < 32 then (u32 (value <<< amount), value.testBit (32 - amount))
      else if amount = 32 then (0, value.testBit 0)
      else (0, false)
    else if shift_type = 1 then      -- LSR
      if amount < 32 then (value >>> amount, value.testBit (amount - 1))
      else if amount = 32 then (0, value.testBit 31)
      else (0, false)
    else if shift_type = 2 then      -- ASR
      if amount < 32 then (asr32 value amount, value.testBit (amount - 1))
      else (signFill value, value.testBit 31)
    else if shift_type = 3 then      -- ROR, amount reduced mod 32
      let a := amount &&& 31
      if a = 0 then (value, value.testBit 31)
      else (ror32 value a, value.testBit (a - 1))
    else (value, carry)
  else
    -- Immediate 5-bit amount: the amount == 0 encodings are special.
    if shift_type = 0 then           -- LSL (#0 passes through)
      if amount = 0 then (value, carry)
      else (u32 (value <<< amount), value.testBit (32 - amount))
    else if shift_type = 1 then      -- LSR (#0 encodes LSR #32)
      if amount = 0 then (0, value.testBit 31)
      else (value >>> amount, value.testBit (amount - 1))
    else if shift_type = 2 then      -- ASR (#0 encodes ASR #32)
      if amount = 0 then (signFill value, value.testBit 31)
      else (asr32 value amount, value.testBit (amount - 1))
    else if shift_type = 3 then      -- ROR (#0 encodes RRX)
      if amount = 0 then
        (u32 (((if carry then 1 else 0) <<< 31) ||| (value >>> 1)), value.testBit 0)
      else (ror32 value amount, value.testBit (amount - 1))
    else (value, carry)

/-- `barrel_shift_reg` from src/cpu/thumb_instr.c (Format 4 ALU register
shifts).  Identical structure to the register branch of `barrel_shift`. -/
def barrel_shift_reg (value : Nat) (shift_type : Nat) (amount : Nat)
    (carry : Bool) : Nat × Bool :=
  if amount = 0 then (value, carry)
  else if shift_type = 0 then
    if amount < 32 then (u32 (value <<< amount), value.testBit (32 - amount))
    else if amount = 32 then (0, value.testBit 0)
    else (0, false)
  else if shift_type = 1 then
    if amount < 32 then (value >>> amount, value.testBit (amount - 1))
    else if amount = 32 then (0, value.testBit 31)
    else (0, false)
  else if shift_type = 2 then
    if amount < 32 then (asr32 value amount, value.testBit (amount - 1))
    else (signFill value, value.testBit 31)
  else if shift_type = 3 then
    let a := amount &&& 31
    if a = 0 then (value, value.testBit 31)
    else (ror32 value a, value.testBit (a - 1))
  else (value, carry)

theorem barrel_shift_reg_eq_arm (v t a : Nat) (c : Bool) :
    barrel_shift_reg v t a c = barrel_shift v t a c true := by
  unfold barrel_shift_reg barrel_shift
  rfl

theorem and31_eq_mod (a : Nat) : a &&& 31 = a % 32 := by
  have h : (31 : Nat) = 2 ^ 5 - 1 := by norm_num
  rw [h]; exact Nat.and_pow_two_sub_one_eq_mod a 5

/-- C3: the barrel shifter realises the specification's edge-case tables.
With an immediate amount: LSL #0 preserves value and carry; LSR #0 acts as
LSR #32 (result 0, carry = bit 31); ASR #0 acts as ASR #32 (all-sign result,
carry = bit 31); ROR #0 acts as RRX with the incoming carry entering at
bit 31.  With a register-specified amount: amount 0 preserves value and
carry for all four types; amount 32 gives 0 (LSL, carry = bit 0), 0 (LSR,
carry = bit 31), all-sign (ASR, carry = bit 31) or the value (ROR, carry =
bit 31); amount > 32 gives 0 with carry false (LSL/LSR), all-sign with
carry = bit 31 (ASR), or reduces modulo 32 (ROR, with multiples of 32
acting as ROR #32).  The Thumb register shifter agrees with the ARM one. -/
theorem C3_barrel_shift_edge_cases (v : Nat) (hv : v < 2 ^ 32) (c : Bool) :
    (barrel_shift v 0 0 c false = (v, c)) ∧
    (barrel_shift v 1 0 c false = (0, v.testBit 31)) ∧
    (barrel_shift v 2 0 c false = (signFill v, v.testBit 31)) ∧
    (barrel_shift v 3 0 c false =
      ((if c then 1 else 0) * 2 ^ 31 + v / 2, v.testBit 0)) ∧
    (∀ t, barrel_shift v t 0 c true = (v, c)) ∧
    (barrel_shift v 0 32 c true = (0, v.testBit 0)) ∧
    (barrel_shift v 1 32 c true = (0, v.testBit 31)) ∧
    (barrel_shift v 2 32 c true = (signFill v, v.testBit 31)) ∧
    (barrel_shift v 3 32 c true = (v, v.testBit 31)) ∧
    (∀ a, 32 < a → barrel_shift v 0 a c true = (0, false)) ∧
    (∀ a, 32 < a → barrel_shift v 1 a c true = (0, false)) ∧
    (∀ a, 32 < a → barrel_shift v 2 a c true = (signFill v, v.testBit 31)) ∧
    (∀ a, 32 < a → barrel_shift v 3 a c true =
      barrel_shift v 3 (if a % 32 = 0 then 32 else a % 32) c true) ∧
    (∀ t a, barrel_shift_reg v t a c = barrel_shift v t a c true) := by
  refine ⟨rfl, rfl, rfl, ?_, fun t => by simp [barrel_shift], rfl, rfl, rfl, rfl,
    ?_, ?_, ?_, ?_, fun t a => barrel_shift_reg_eq_arm v t a c⟩
  · -- RRX: the or of the carry at bit 31 and the value shifted down is a sum
    have hstep : barrel_shift v 3 0 c false
        = (u32 (((if c then 1 else 0) <<< 31) ||| (v >>> 1)), v.testBit 0) := rfl
    have hhalf : v >>> 1 = v / 2 := by
      simpa using Nat.shiftRight_eq_div_pow v 1
    have hlt : v / 2 < 2 ^ 31 := by omega
    have hc : ((if c then 1 else 0) : Nat) <<< 31 = 2 ^ 31 * (if c then 1 else 0) := by
      rw [Nat.shiftLeft_eq]; ring
    have hor : ((if c then 1 else 0) : Nat) <<< 31 ||| v >>> 1
        = (if c then 1 else 0) * 2 ^ 31 + v / 2 := by
      rw [hc, hhalf, ← Nat.mul_add_lt_is_or hlt]; ring_nf
    have hbound : (if c then 1 else 0) * 2 ^ 31 + v / 2 < 2 ^ 32 := by
      cases c <;> simp <;> omega
    rw [hstep, hor, u32_of_lt hbound]
  · intro a ha
    unfold barrel_shift
    have h0 : a ≠ 0 := by omega
    have h1 : ¬ a < 32 := by omega
    have h2 : a ≠ 32 := by omega
    simp [h0, h1, h2]
  · intro a ha
    unfold barrel_shift
    have h0 : a ≠ 0 := by omega
    have h1 : ¬ a < 32 := by omega
    have h2 : a ≠ 32 := by omega
    simp [h0, h1, h2]
  · intro a ha
    unfold barrel_shift
    have h0 : a ≠ 0 := by omega
    have h1 : ¬ a < 32 := by omega
    simp [h0, h1]
  · intro a ha
    have h0 : a ≠ 0 := by omega
    by_cases hz : a % 32 = 0
    · -- multiples of 32 behave as ROR #32
      simp only [if_pos hz]
      unfold barrel_shift
      simp [h0, and31_eq_mod, hz]
    · simp only [if_neg hz]
      have hr : a % 32 < 32 := Nat.mod_lt _ (by norm_num)
      have hrr : a % 32 % 32 = a % 32 := Nat.mod_eq_of_lt hr
      unfold barrel_shift
      simp [h0, hz, and31_eq_mod, hrr]

/-- Witness for C3 at concrete inputs, discharging `v < 2^32` and `32 < a`. -/
theorem C3_barrel_shift_edge_cases_witness :
    barrel_shift 5 1 0 true false = (0, false) ∧
    barrel_shift 5 0 33 true true = (0, false) := by
  have h := C3_barrel_shift_edge_cases 5 (by norm_num) true
  exact ⟨h.2.1, h.2.2.2.2.2.2.2.2.2.1 33 (by norm_num)⟩

/- ====================================================================
   Memory bus — src/memory/bus.c
   ==================================================================== -/

def BIOS_SIZE : Nat := 0x4000
def EWRAM_SIZE : Nat := 0x40000
def IWRAM_SIZE : Nat := 0x8000
def IO_SIZE : Nat := 0x400
def PALETTE_SIZE : Nat := 0x400
def VRAM_SIZE : Nat := 0x18000
def OAM_SIZE : Nat := 0x400

/-- The bus state.  Byte arrays are functions; `cpu_pc` is the value of
`bus->cpu->regs[REG_PC]` (the CPU is wired to the bus in `gba_init`).
`ioDispatch` stands for the subsystem-owned register reads inside
`io_read8` (PPU/interrupt/timer/input live state), and `cartRead` for
`cartridge_read8` — both are external to the bus's own state and are
modelled as read oracles. -/
structure Bus where
  bios : Nat → Nat
  ewram : Nat → Nat
  iwram : Nat → Nat
  io_regs : Nat → Nat
  palette_ram : Nat → Nat
  vram : Nat → Nat
  oam : Nat → Nat
  open_bus : Nat
  last_bios_read : Nat
  cpu_pc : Nat
  ioDispatch : Nat → Nat
  cartRead : Nat → Nat

/-- Every byte-array cell and oracle result fits in a byte (`uint8_t`). -/
def Bus.Wf (bus : Bus) : Prop :=
  (∀ a, bus.bios a < 256) ∧ (∀ a, bus.ewram a < 256) ∧ (∀ a, bus.iwram a < 256) ∧
  (∀ a, bus.io_regs a < 256) ∧ (∀ a, bus.palette_ram a < 256) ∧
  (∀ a, bus.vram a < 256) ∧ (∀ a, bus.oam a < 256) ∧
  (∀ a, bus.ioDispatch a < 256) ∧ (∀ a, bus.cartRead a < 256)

/-- `decode_region` — the top byte of the address. -/
def decode_region (addr : Nat) : Nat := (addr >>> 24) &&& 0xFF

/-- The switch labels of `io_read8` that are dispatched to a subsystem
rather than falling through to the raw `io_regs` array: DISPCNT/DISPSTAT/
VCOUNT, BG0CNT..BG3CNT, IE/IF/IME, the timer counter and control words,
and KEYINPUT/KEYCNT.  (WAITCNT at 0x204/0x205 reads from `io_regs`.) -/
def io_dispatched (offset : Nat) : Bool :=
  decide (offset ∈ ([0x00, 0x01, 0x04, 0x05, 0x06, 0x07,
    0x08, 0x09, 0x0A, 0x0B, 0x0C, 0x0D, 0x0E, 0x0F,
    0x200, 0x201, 0x202, 0x203, 0x208, 0x209,
    0x100, 0x101, 0x102, 0x103, 0x104, 0x105, 0x106, 0x107,
    0x108, 0x109, 0x10A, 0x10B, 0x10C, 0x10D, 0x10E, 0x10F,
    0x130, 0x131, 0x132, 0x133] : List Nat))

/-- `io_read8`: subsystem-owned offsets go to the dispatch oracle, all
others to the raw backing array. -/
def io_read8 (bus : Bus) (addr : Nat) : Nat :=
  let offset := addr &&& 0x3FF
  if io_dispatched offset then bus.ioDispatch offset else bus.io_regs offset

/-- The aligned BIOS word cached by a permitted BIOS read
(`bus->last_bios_read`, little-endian from four BIOS bytes). -/
def biosAlignedWord (bus : Bus) (addr : Nat) : Nat :=
  let aligned := addr &&& 0xFFFFFFFC
  bus.bios aligned ||| (bus.bios (aligned + 1) <<< 8)
    ||| (bus.bios (aligned + 2) <<< 16) ||| (bus.bios (aligned + 3) <<< 24)

/-- `bus_read8` from src/memory/bus.c.  Returns the byte and the updated
bus (a permitted BIOS read caches the aligned BIOS word). -/
def bus_read8 (bus : Bus) (addr : Nat) : Nat × Bus :=
  let region := decode_region addr
  if region = 0x00 then
    if addr < BIOS_SIZE then
      -- BIOS protection: reads allowed only while the CPU executes in BIOS
      if BIOS_SIZE + 8 ≤ bus.cpu_pc then
        (u8 (bus.last_bios_read >>> ((addr &&& 3) * 8)), bus)
      else
        (bus.bios addr, { bus with last_bios_read := biosAlignedWord bus addr })
    else (0, bus)
  else if region = 0x02 then (bus.ewram (addr &&& (EWRAM_SIZE - 1)), bus)
  else if region = 0x03 then (bus.iwram (addr &&& (IWRAM_SIZE - 1)), bus)
  else if region = 0x04 then
    if addr &&& 0xFFFFFF < IO_SIZE then (io_read8 bus addr, bus) else (0, bus)
  else if region = 0x05 then (bus.palette_ram (addr &&& (PALETTE_SIZE - 1)), bus)
  else if region = 0x06 then
    let voff := addr &&& 0x1FFFF
    let voff := if VRAM_SIZE ≤ voff then voff - 0x8000 else voff
    (bus.vram voff, bus)
  else if region = 0x07 then (bus.oam (addr &&& (OAM_SIZE - 1)), bus)
  else if 0x08 ≤ region ∧ region ≤ 0x0D then (bus.cartRead addr, bus)
  else if region = 0x0E ∨ region = 0x0F then (bus.cartRead addr, bus)
  else (u8 bus.open_bus, bus)

/-- `bus_read16`: force halfword alignment, two byte reads, little-endian. -/
def bus_read16 (bus : Bus) (addr : Nat) : Nat × Bus :=
  let a := addr &&& 0xFFFFFFFE
  let r0 := bus_read8 bus a
  let r1 := bus_read8 r0.2 (a + 1)
  (r0.1 ||| (r1.1 <<< 8), r1.2)

/-- `bus_read32`: force word alignment, four byte reads, little-endian. -/
def bus_read32 (bus : Bus) (addr : Nat) : Nat × Bus :=
  let a := addr &&& 0xFFFFFFFC
  let r0 := bus_read8 bus a
  let r1 := bus_read8 r0.2 (a + 1)
  let r2 := bus_read8 r1.2 (a + 2)
  let r3 := bus_read8 r2.2 (a + 3)
  (r0.1 ||| (r1.1 <<< 8) ||| (r2.1 <<< 16) ||| (r3.1 <<< 24), r3.2)

theorem bus_read8_wf {bus : Bus} (h : bus.Wf) (addr : Nat) :
    (bus_read8 bus addr).2.Wf := by
  unfold bus_read8
  dsimp only
  repeat' split
  all_goals exact h

theorem bus_read8_lt {bus : Bus} (h : bus.Wf) (addr : Nat) :
    (bus_read8 bus addr).1 < 256 := by
  obtain ⟨h1, h2, h3, h4, h5, h6, h7, h8, h9⟩ := h
  unfold bus_read8 io_read8
  dsimp only
  repeat' split
  all_goals first
    | (rw [u8_eq_mod]; exact Nat.mod_lt _ (by norm_num))
    | exact h1 _ | exact h2 _ | exact h3 _ | exact h4 _ | exact h5 _
    | exact h6 _ | exact h7 _ | exact h8 _ | exact h9 _
    | omega

theorem bus_read16_lt {bus : Bus} (h : bus.Wf) (addr : Nat) :
    (bus_read16 bus addr).1 < 2 ^ 16 := by
  unfold bus_read16
  dsimp only
  have hb0 := bus_read8_lt h (addr &&& 0xFFFFFFFE)
  have hb1 := bus_read8_lt (bus_read8_wf h (addr &&& 0xFFFFFFFE)) ((addr &&& 0xFFFFFFFE) + 1)
  apply Nat.or_lt_two_pow (by omega)
  rw [Nat.shiftLeft_eq]
  have : (2 : Nat) ^ 16 = 256 * 2 ^ 8 := by norm_num
  rw [this]
  exact Nat.mul_lt_mul_of_lt_of_le hb1 (by norm_num) (by norm_num)

theorem bus_read32_lt {bus : Bus} (h : bus.Wf) (addr : Nat) :
    (bus_read32 bus addr).1 < 2 ^ 32 := by
  unfold bus_read32
  dsimp only
  have w0 := bus_read8_wf h (addr &&& 0xFFFFFFFC)
  have w1 := bus_read8_wf w0 ((addr &&& 0xFFFFFFFC) + 1)
  have w2 := bus_read8_wf w1 ((addr &&& 0xFFFFFFFC) + 2)
  have hb0 := bus_read8_lt h (addr &&& 0xFFFFFFFC)
  have hb1 := bus_read8_lt w0 ((addr &&& 0xFFFFFFFC) + 1)
  have hb2 := bus_read8_lt w1 ((addr &&& 0xFFFFFFFC) + 2)
  have hb3 := bus_read8_lt w2 ((addr &&& 0xFFFFFFFC) + 3)
  have sh : ∀ (v : Nat) (k : Nat), v < 256 → k + 8 ≤ 32 → v <<< k < 2 ^ 32 := by
    intro v k hv hk
    rw [Nat.shiftLeft_eq]
    calc v * 2 ^ k < 256 * 2 ^ k := by
          exact Nat.mul_lt_mul_of_lt_of_le hv (le_refl _) (by positivity)
      _ = 2 ^ (k + 8) := by rw [pow_add]; ring
      _ ≤ 2 ^ 32 := Nat.pow_le_pow_right (by norm_num) hk
  apply Nat.or_lt_two_pow
  apply Nat.or_lt_two_pow
  apply Nat.or_lt_two_pow
  · omega
  · exact sh _ 8 hb1 (by norm_num)
  · exact sh _ 16 hb2 (by norm_num)
  · exact sh _ 24 hb3 (by norm_num)

theorem ror32_testBit {w : Nat} (hw : w < 2 ^ 32) {r : Nat} (hr0 : 0 < r)
    (hr : r < 32) {j : Nat} (hj : j < 32) :
    (ror32 w r).testBit j = w.testBit ((j + r) % 32) := by
  rw [ror32, u32_eq_mod]
  rw [Nat.testBit_mod_two_pow]
  simp only [Nat.testBit_or, Nat.testBit_shiftRight, Nat.testBit_shiftLeft, hj,
    decide_True, Bool.true_and]
  by_cases hcase : j < 32 - r
  · have hmod : (j + r) % 32 = j + r := Nat.mod_eq_of_lt (by omega)
    have hnle : ¬ (32 - r ≤ j) := by omega
    simp [hmod, hnle, Nat.add_comm r j]
  · have hmod : (j + r) % 32 = j - (32 - r) := by omega
    have hle : 32 - r ≤ j := by omega
    have hhigh : w.testBit (r + j) = false := by
      apply Nat.testBit_lt_two_pow
      calc w < 2 ^ 32 := hw
        _ ≤ 2 ^ (r + j) := Nat.pow_le_pow_right (by norm_num) (by omega)
    simp [hmod, hle, hhigh]

/-- The LDR word-load path of `arm_single_transfer` (src/cpu/arm_instr.c):
read the word at the force-aligned address and rotate it right by
`(addr & 3) * 8` bits when the address was misaligned.  This is the value
written to `Rd`. -/
def arm_ldr_word (bus : Bus) (addr : Nat) : Nat × Bus :=
  let aligned := addr &&& 0xFFFFFFFC
  let r := bus_read32 bus aligned
  let rot := (addr &&& 3) * 8
  (if rot ≠ 0 then ror32 r.1 rot else r.1, r.2)

/-- The LDRH path of `arm_halfword_transfer` (src/cpu/arm_instr.c): a
misaligned (odd) halfword load reads the aligned halfword and rotates the
32-bit result right by 8 bits. -/
def arm_ldrh (bus : Bus) (addr : Nat) : Nat × Bus :=
  if addr &&& 1 ≠ 0 then
    let r := bus_read16 bus (addr &&& 0xFFFFFFFE)
    (u32 ((r.1 >>> 8) ||| (r.1 <<< 24)), r.2)
  else bus_read16 bus addr

theorem and3_eq_mod (a : Nat) : a &&& 3 = a % 4 := by
  have h : (3 : Nat) = 2 ^ 2 - 1 := by norm_num
  rw [h]; exact Nat.and_pow_two_sub_one_eq_mod a 2

/-- The bus used by the specification's LDR-rotate scenario: IWRAM bytes
`{0x11, 0x22, 0x33, 0x44}` at 0x03000000. -/
def ldrExampleBus : Bus where
  bios := fun _ => 0
  ewram := fun _ => 0
  iwram := fun a =>
    if a = 0 then 0x11 else if a = 1 then 0x22
    else if a = 2 then 0x33 else if a = 3 then 0x44 else 0
  io_regs := fun _ => 0
  palette_ram := fun _ => 0
  vram := fun _ => 0
  oam := fun _ => 0
  open_bus := 0
  last_bios_read := 0
  cpu_pc := 0x08000000
  ioDispatch := fun _ => 0
  cartRead := fun _ => 0

/-- C4: a misaligned word load returns the word at the force-aligned
address rotated right by `(addr & 3) * 8` bits (stated per bit); a
misaligned halfword load returns the aligned halfword rotated right by
8 bits within the 32-bit result; and on the spec's concrete scenario —
memory bytes {0x11,0x22,0x33,0x44} at 0x03000000 — an LDR from
0x03000002 yields 0x22114433. -/
theorem C4_misaligned_load_rotate :
    (∀ (bus : Bus) (addr : Nat), bus.Wf → addr &&& 3 ≠ 0 → ∀ j, j < 32 →
      ((arm_ldr_word bus addr).1).testBit j
        = ((bus_read32 bus (addr &&& 0xFFFFFFFC)).1).testBit
            ((j + (addr &&& 3) * 8) % 32)) ∧
    (∀ (bus : Bus) (addr : Nat), bus.Wf → addr &&& 1 ≠ 0 → ∀ j, j < 32 →
      ((arm_ldrh bus addr).1).testBit j
        = ((bus_read16 bus (addr &&& 0xFFFFFFFE)).1).testBit ((j + 8) % 32)) ∧
    (arm_ldr_word ldrExampleBus 0x03000002).1 = 0x22114433 := by
  refine ⟨?_, ?_, by decide⟩
  · intro bus addr hwf hmis j hj
    have h3 : addr &&& 3 < 4 := by rw [and3_eq_mod]; exact Nat.mod_lt _ (by norm_num)
    have hw := bus_read32_lt hwf (addr &&& 0xFFFFFFFC)
    show (if (addr &&& 3) * 8 ≠ 0 then
        ror32 (bus_read32 bus (addr &&& 0xFFFFFFFC)).1 ((addr &&& 3) * 8)
      else (bus_read32 bus (addr &&& 0xFFFFFFFC)).1).testBit j = _
    rw [if_pos (by omega)]
    exact ror32_testBit hw (by omega) (by omega) hj
  · intro bus addr hwf hodd j hj
    have hv := bus_read16_lt hwf (addr &&& 0xFFFFFFFE)
    simp only [arm_ldrh]
    rw [if_pos hodd]
    have hror : u32 (((bus_read16 bus (addr &&& 0xFFFFFFFE)).1 >>> 8)
        ||| ((bus_read16 bus (addr &&& 0xFFFFFFFE)).1 <<< 24))
        = ror32 (bus_read16 bus (addr &&& 0xFFFFFFFE)).1 8 := rfl
    show (u32 _).testBit j = _
    rw [hror]
    exact ror32_testBit (by omega) (by norm_num) (by norm_num) hj

theorem ldrExampleBus_wf : ldrExampleBus.Wf := by
  refine ⟨fun a => ?_, fun a => ?_, fun a => ?_, fun a => ?_, fun a => ?_,
    fun a => ?_, fun a => ?_, fun a => ?_, fun a => ?_⟩ <;>
    · simp only [ldrExampleBus]
      first
        | (split_ifs <;> norm_num)
        | norm_num

/-- Witness for C4: the general rotate law applied at the spec's concrete
scenario (bit 0 of the rotated load equals bit 16 of the aligned word). -/
theorem C4_misaligned_load_rotate_witness :
    ((arm_ldr_word ldrExampleBus 0x03000002).1).testBit 0
      = ((bus_read32 ldrExampleBus (0x03000002 &&& 0xFFFFFFFC)).1).testBit
          ((0 + (0x03000002 &&& 3) * 8) % 32) :=
  C4_misaligned_load_rotate.1 ldrExampleBus 0x03000002
    ldrExampleBus_wf (by decide) 0 (by norm_num)

/- ====================================================================
   C5 — BIOS protection rule in bus_read8
   ==================================================================== -/

/-- A bus whose CPU program counter is just past the BIOS region
(PC = 0x4004, executing address 0x3FFC still inside BIOS), with a
distinguishable BIOS byte and cached word. -/
def biosEdgeBus : Bus where
  bios := fun a => if a = 0 then 0x11 else 0
  ewram := fun _ => 0
  iwram := fun _ => 0
  io_regs := fun _ => 0
  palette_ram := fun _ => 0
  vram := fun _ => 0
  oam := fun _ => 0
  open_bus := 0
  last_bios_read := 0xAABBCCDD
  cpu_pc := 0x4004
  ioDispatch := fun _ => 0
  cartRead := fun _ => 0

/-- Counterexample to C5 as stated: with PC = 0x4004 — outside the 16 KiB
BIOS region — a BIOS byte read still returns the live BIOS byte (0x11,
not the cached byte 0xDD) and still overwrites the cached word, because
the code's threshold is `BIOS_SIZE + 8`, not `BIOS_SIZE`. -/
theorem C5_bios_protection_cex :
    BIOS_SIZE ≤ biosEdgeBus.cpu_pc ∧
    (bus_read8 biosEdgeBus 0).1 = 0x11 ∧
    (bus_read8 biosEdgeBus 0).1 ≠ u8 (biosEdgeBus.last_bios_read >>> ((0 &&& 3) * 8)) ∧
    (bus_read8 biosEdgeBus 0).2.last_bios_read ≠ biosEdgeBus.last_bios_read := by
  decide

/-- C5 (amended): a BIOS byte read is permitted exactly while
`PC < BIOS_SIZE + 8` — i.e. while the executing instruction (PC − 8 in
ARM state) is still inside the BIOS region — in which case it returns the
live BIOS byte and caches the aligned BIOS word; once `PC ≥ BIOS_SIZE + 8`
it returns the byte of the cached word selected by `addr & 3` and leaves
the bus (BIOS memory and cached word) unchanged. -/
theorem C5_bios_protection (bus : Bus) (addr : Nat) (ha : addr < BIOS_SIZE) :
    (bus.cpu_pc < BIOS_SIZE + 8 →
      bus_read8 bus addr
        = (bus.bios addr, { bus with last_bios_read := biosAlignedWord bus addr })) ∧
    (BIOS_SIZE + 8 ≤ bus.cpu_pc →
      bus_read8 bus addr
        = (u8 (bus.last_bios_read >>> ((addr &&& 3) * 8)), bus)) := by
  have hreg : decode_region addr = 0 := by
    have : addr >>> 24 = 0 := by
      rw [Nat.shiftRight_eq_div_pow]
      have : addr < 2 ^ 24 := by
        have : BIOS_SIZE ≤ 2 ^ 24 := by norm_num [BIOS_SIZE]
        omega
      omega
    simp [decode_region, this]
  have hred : bus_read8 bus addr =
      if BIOS_SIZE + 8 ≤ bus.cpu_pc
      then (u8 (bus.last_bios_read >>> ((addr &&& 3) * 8)), bus)
      else (bus.bios addr, { bus with last_bios_read := biosAlignedWord bus addr }) := by
    unfold bus_read8
    rw [hreg]
    simp [ha]
  constructor
  · intro hpc
    rw [hred, if_neg (by omega)]
  · intro hpc
    rw [hred, if_pos hpc]

/-- Witness for C5: both branches of the amended rule at concrete inputs
(`biosEdgeBus` has PC ≥ BIOS_SIZE + 8 after bumping PC by 8; the example
bus executes in ROM, and a bus executing at PC 0 reads BIOS live). -/
theorem C5_bios_protection_witness :
    bus_read8 ldrExampleBus 2
      = (u8 (ldrExampleBus.last_bios_read >>> ((2 &&& 3) * 8)), ldrExampleBus) ∧
    bus_read8 biosEdgeBus 2
      = (biosEdgeBus.bios 2,
         { biosEdgeBus with last_bios_read := biosAlignedWord biosEdgeBus 2 }) :=
  ⟨(C5_bios_protection ldrExampleBus 2 (by norm_num [BIOS_SIZE])).2
      (by norm_num [ldrExampleBus, BIOS_SIZE]),
   (C5_bios_protection biosEdgeBus 2 (by norm_num [BIOS_SIZE])).1
      (by norm_num [biosEdgeBus, BIOS_SIZE])⟩

/- ====================================================================
   Interrupt controller — src/interrupt/interrupt.c
   ==================================================================== -/

/-- Interrupt controller state: master enable, enable mask, pending flags
(the C struct calls the IF register `irf`). -/
structure InterruptController where
  ime : Bool
  ie : Nat
  irf : Nat

/-- `interrupt_request`: OR the request bit into IF. -/
def interrupt_request (ic : InterruptController) (irq_bit : Nat) : InterruptController :=
  { ic with irf := ic.irf ||| irq_bit }

/-- `interrupt_pending`: `ime && (ie & irf)` (nonzero test). -/
def interrupt_pending (ic : InterruptController) : Bool :=
  ic.ime && (ic.ie &&& ic.irf ≠ 0)

/- ====================================================================
   ARM7TDMI CPU state — src/cpu/arm7tdmi.h, src/cpu/arm7tdmi.c
   ==================================================================== -/

def CPU_MODE_USR : Nat := 0x10
def CPU_MODE_FIQ : Nat := 0x11
def CPU_MODE_IRQ : Nat := 0x12
def CPU_MODE_SVC : Nat := 0x13
def CPU_MODE_ABT : Nat := 0x17
def CPU_MODE_UND : Nat := 0x1B
def CPU_MODE_SYS : Nat := 0x1F

def CPSR_N : Nat := 31
def CPSR_Z : Nat := 30
def CPSR_C : Nat := 29
def CPSR_V : Nat := 28
def CPSR_I : Nat := 7
def CPSR_F : Nat := 6
def CPSR_T : Nat := 5

def REG_SP : Nat := 13
def REG_LR : Nat := 14
def REG_PC : Nat := 15

/-- CPU state.  The flat C arrays (`regs[16]`, `spsr[5]`, `banked[22]`,
`pipeline[2]`) become functions / paired fields. -/
structure ARM7TDMI where
  regs : Nat → Nat
  cpsr : Nat
  spsr : Nat → Nat
  banked : Nat → Nat
  pipeline0 : Nat
  pipeline1 : Nat
  pipeline_valid : Bool
  halted : Bool

/-- `bank_offset_for_mode`: banked-array offset for the modes that bank
only SP/LR (`none` models the C's `-1` for USR/SYS/FIQ). -/
def bank_offset_for_mode (mode : Nat) : Option Nat :=
  if mode = CPU_MODE_SVC then some 7
  else if mode = CPU_MODE_ABT then some 9
  else if mode = CPU_MODE_IRQ then some 11
  else if mode = CPU_MODE_UND then some 13
  else none

/-- The "save outgoing mode's banked registers" half of `cpu_switch_mode`:
FIQ saves R8-R14 and restores user R8-R12; IRQ/SVC/ABT/UND save SP/LR at
their bank offset; USR/SYS save SP/LR to slots 20-21. -/
def cpu_bank_save (cpu : ARM7TDMI) : ARM7TDMI :=
  if cpu.cpsr &&& 0x1F = CPU_MODE_FIQ then
    { cpu with
      banked := fun i =>
        if i ≤ 4 then cpu.regs (8 + i)          -- FIQ R8-R12 -> banked[0..4]
        else if i = 5 then cpu.regs REG_SP       -- FIQ SP -> banked[5]
        else if i = 6 then cpu.regs REG_LR       -- FIQ LR -> banked[6]
        else cpu.banked i,
      regs := fun i =>                           -- restore USR R8-R12
        if 8 ≤ i ∧ i ≤ 12 then cpu.banked (15 + (i - 8)) else cpu.regs i }
  else
    match bank_offset_for_mode (cpu.cpsr &&& 0x1F) with
    | some off =>
      { cpu with banked := fun i =>
          if i = off then cpu.regs REG_SP
          else if i = off + 1 then cpu.regs REG_LR
          else cpu.banked i }
    | none =>
      { cpu with banked := fun i =>
          if i = 20 then cpu.regs REG_SP
          else if i = 21 then cpu.regs REG_LR
          else cpu.banked i }

/-- The "load incoming mode's banked registers" half of `cpu_switch_mode`. -/
def cpu_bank_load (cpu : ARM7TDMI) (new_mode : Nat) : ARM7TDMI :=
  if new_mode = CPU_MODE_FIQ then
    { cpu with
      banked := fun i =>                         -- USR R8-R12 -> banked[15..19]
        if 15 ≤ i ∧ i ≤ 19 then cpu.regs (8 + (i - 15)) else cpu.banked i,
      regs := fun i =>
        if 8 ≤ i ∧ i ≤ 12 then cpu.banked (i - 8)
        else if i = REG_SP then cpu.banked 5
        else if i = REG_LR then cpu.banked 6
        else cpu.regs i }
  else
    match bank_offset_for_mode new_mode with
    | some off =>
      { cpu with regs := fun i =>
          if i = REG_SP then cpu.banked off
          else if i = REG_LR then cpu.banked (off + 1)
          else cpu.regs i }
    | none =>
      { cpu with regs := fun i =>
          if i = REG_SP then cpu.banked 20
          else if i = REG_LR then cpu.banked 21
          else cpu.regs i }

/-- `cpu_switch_mode`: no-op when the mode is unchanged; otherwise save
the outgoing mode's bank, load the incoming one's, and write the new mode
bits into CPSR. -/
def cpu_switch_mode (cpu : ARM7TDMI) (new_mode : Nat) : ARM7TDMI :=
  if cpu.cpsr &&& 0x1F = new_mode then cpu
  else
    let c := cpu_bank_load (cpu_bank_save cpu) new_mode
    { c with cpsr := (c.cpsr &&& 0xFFFFFFE0) ||| (new_mode &&& 0x1F) }

/-- `cpu_flush_pipeline`. -/
def cpu_flush_pipeline (cpu : ARM7TDMI) : ARM7TDMI :=
  { cpu with pipeline_valid := false }

/-- `cpu_check_irq`: CPSR.I clear and the interrupt controller pending. -/
def cpu_check_irq (cpu : ARM7TDMI) (ic : InterruptController) : Bool :=
  if cpu.cpsr.testBit CPSR_I then false else interrupt_pending ic

/-- `cpu_handle_irq`: IRQ exception entry. -/
def cpu_handle_irq (cpu : ARM7TDMI) : ARM7TDMI :=
  let old_cpsr := cpu.cpsr
  -- switch to IRQ mode (banks SP/LR)
  let c1 := cpu_switch_mode cpu CPU_MODE_IRQ
  -- save old CPSR into SPSR_irq (index 3)
  let c2 := { c1 with spsr := Function.update c1.spsr 3 old_cpsr }
  -- LR_irq = current PC
  let c3 := { c2 with regs := Function.update c2.regs REG_LR (c2.regs REG_PC) }
  -- disable IRQs
  let c4 := { c3 with cpsr := c3.cpsr ||| (1 <<< CPSR_I) }
  -- force ARM state
  let c5 := { c4 with cpsr := c4.cpsr &&& (0xFFFFFFFF ^^^ (1 <<< CPSR_T)) }
  -- jump to IRQ vector
  let c6 := { c5 with regs := Function.update c5.regs REG_PC 0x18 }
  cpu_flush_pipeline c6

theorem cpu_bank_save_pc (cpu : ARM7TDMI) :
    (cpu_bank_save cpu).regs REG_PC = cpu.regs REG_PC := by
  unfold cpu_bank_save
  split
  · simp [REG_PC]
  · split <;> rfl

theorem cpu_bank_save_cpsr (cpu : ARM7TDMI) :
    (cpu_bank_save cpu).cpsr = cpu.cpsr := by
  unfold cpu_bank_save
  split
  · rfl
  · split <;> rfl

theorem cpu_bank_save_spsr (cpu : ARM7TDMI) :
    (cpu_bank_save cpu).spsr = cpu.spsr := by
  unfold cpu_bank_save
  split
  · rfl
  · split <;> rfl

theorem cpu_bank_load_pc (cpu : ARM7TDMI) (m : Nat) :
    (cpu_bank_load cpu m).regs REG_PC = cpu.regs REG_PC := by
  unfold cpu_bank_load
  split
  · simp [REG_PC, REG_SP, REG_LR]
  · split <;> simp [REG_PC, REG_SP, REG_LR]

theorem cpu_bank_load_cpsr (cpu : ARM7TDMI) (m : Nat) :
    (cpu_bank_load cpu m).cpsr = cpu.cpsr := by
  unfold cpu_bank_load
  split
  · rfl
  · split <;> rfl

theorem cpu_bank_load_spsr (cpu : ARM7TDMI) (m : Nat) :
    (cpu_bank_load cpu m).spsr = cpu.spsr := by
  unfold cpu_bank_load
  split
  · rfl
  · split <;> rfl

theorem cpu_switch_mode_pc (cpu : ARM7TDMI) (m : Nat) :
    (cpu_switch_mode cpu m).regs REG_PC = cpu.regs REG_PC := by
  unfold cpu_switch_mode
  split
  · rfl
  · show (cpu_bank_load (cpu_bank_save cpu) m).regs REG_PC = cpu.regs REG_PC
    rw [cpu_bank_load_pc, cpu_bank_save_pc]

theorem cpu_switch_mode_cpsr (cpu : ARM7TDMI) (m : Nat) :
    (cpu_switch_mode cpu m).cpsr
      = if cpu.cpsr &&& 0x1F = m then cpu.cpsr
        else (cpu.cpsr &&& 0xFFFFFFE0) ||| (m &&& 0x1F) := by
  unfold cpu_switch_mode
  split
  · rfl
  · show (cpu_bank_load (cpu_bank_save cpu) m).cpsr &&& 0xFFFFFFE0 ||| (m &&& 0x1F) = _
    rw [cpu_bank_load_cpsr, cpu_bank_save_cpsr]

theorem cpu_switch_mode_spsr (cpu : ARM7TDMI) (m : Nat) :
    (cpu_switch_mode cpu m).spsr = cpu.spsr := by
  unfold cpu_switch_mode
  split
  · rfl
  · show (cpu_bank_load (cpu_bank_save cpu) m).spsr = cpu.spsr
    rw [cpu_bank_load_spsr, cpu_bank_save_spsr]

theorem clear_mode_and_low5 (x y : Nat) :
    ((x &&& 0xFFFFFFE0) ||| y) &&& 0x1F = y &&& 0x1F := by
  rw [Nat.and_distrib_right, Nat.and_assoc]
  have h : (0xFFFFFFE0 &&& 0x1F : Nat) = 0 := by decide
  rw [h, Nat.and_zero, Nat.zero_or]

theorem irq_entry_cpsr_low5 (s : Nat) :
    ((s ||| (1 <<< CPSR_I)) &&& (0xFFFFFFFF ^^^ (1 <<< CPSR_T))) &&& 0x1F
      = s &&& 0x1F := by
  have hm : (0xFFFFFFFF ^^^ (1 <<< CPSR_T) : Nat) = 0xFFFFFFDF := by decide
  have h7 : (1 <<< CPSR_I : Nat) = 128 := by decide
  rw [hm, h7, Nat.and_assoc]
  have h1 : (0xFFFFFFDF &&& 0x1F : Nat) = 0x1F := by decide
  rw [h1, Nat.and_distrib_right]
  have h2 : (128 &&& 0x1F : Nat) = 0 := by decide
  rw [h2, Nat.or_zero]

/-- C2: IRQ entry and its gating.  `cpu_check_irq` is true exactly when
CPSR.I is clear, IME is set and `IE & IF` is nonzero (so no IRQ is taken
when I=1, IME=0 or `(IE & IF) = 0`); and `cpu_handle_irq` switches the
mode bits to IRQ (0x12), saves the prior CPSR into SPSR_irq (slot 3),
sets LR to the prior PC, sets I, clears T, sets PC to 0x18 and
invalidates the pipeline. -/
theorem C2_irq_entry (cpu : ARM7TDMI) (ic : InterruptController) :
    (cpu_check_irq cpu ic = true ↔
      (cpu.cpsr.testBit CPSR_I = false ∧ ic.ime = true ∧ ic.ie &&& ic.irf ≠ 0)) ∧
    ((cpu_handle_irq cpu).cpsr &&& 0x1F = CPU_MODE_IRQ) ∧
    ((cpu_handle_irq cpu).spsr 3 = cpu.cpsr) ∧
    ((cpu_handle_irq cpu).regs REG_LR = cpu.regs REG_PC) ∧
    ((cpu_handle_irq cpu).cpsr.testBit CPSR_I = true) ∧
    ((cpu_handle_irq cpu).cpsr.testBit CPSR_T = false) ∧
    ((cpu_handle_irq cpu).regs REG_PC = 0x18) ∧
    ((cpu_handle_irq cpu).pipeline_valid = false) := by
  have hcpsr : (cpu_handle_irq cpu).cpsr
      = ((cpu_switch_mode cpu CPU_MODE_IRQ).cpsr ||| (1 <<< CPSR_I))
          &&& (0xFFFFFFFF ^^^ (1 <<< CPSR_T)) := rfl
  have hregs : (cpu_handle_irq cpu).regs
      = Function.update
          (Function.update (cpu_switch_mode cpu CPU_MODE_IRQ).regs REG_LR
            ((cpu_switch_mode cpu CPU_MODE_IRQ).regs REG_PC))
          REG_PC 0x18 := rfl
  refine ⟨?_, ?_, ?_, ?_, ?_, ?_, ?_, rfl⟩
  · unfold cpu_check_irq interrupt_pending
    cases h : cpu.cpsr.testBit CPSR_I <;> simp [h]
  · -- mode bits after entry are IRQ
    rw [hcpsr, irq_entry_cpsr_low5, cpu_switch_mode_cpsr]
    split
    · next heq => exact heq
    · rw [clear_mode_and_low5]; decide
  · -- SPSR_irq holds the prior CPSR
    show (Function.update (cpu_switch_mode cpu CPU_MODE_IRQ).spsr 3 cpu.cpsr) 3 = cpu.cpsr
    simp
  · -- LR_irq is the prior PC (mode switching never touches R15)
    rw [hregs]
    rw [Function.update_noteq (by norm_num [REG_LR, REG_PC]) _ _]
    rw [Function.update_same]
    exact cpu_switch_mode_pc cpu CPU_MODE_IRQ
  · rw [hcpsr]
    have hm : (0xFFFFFFFF ^^^ (1 <<< CPSR_T) : Nat) = 0xFFFFFFDF := by decide
    have h7 : (1 <<< CPSR_I : Nat) = 128 := by decide
    rw [hm, h7]
    simp only [Nat.testBit_land, Nat.testBit_or]
    have ha : Nat.testBit 128 CPSR_I = true := by decide
    have hb : Nat.testBit 0xFFFFFFDF CPSR_I = true := by decide
    rw [ha, hb]
    simp
  · rw [hcpsr]
    have hm : (0xFFFFFFFF ^^^ (1 <<< CPSR_T) : Nat) = 0xFFFFFFDF := by decide
    rw [hm]
    simp only [Nat.testBit_land]
    have hb : Nat.testBit 0xFFFFFFDF CPSR_T = false := by decide
    rw [hb]
    simp
  · rw [hregs]
    rw [Function.update_same]

/- ====================================================================
   CPU step — the execute-first pipeline variant of cpu_step
   (src/cpu/arm7tdmi.c; the specification's design note designates this
   variant — execute pipe[0], then shift/refill only while still valid —
   as the authoritative one)
   ==================================================================== -/

/-- `cpu_condition_passed`: the 16 ARM condition predicates over N/Z/C/V. -/
def cpu_condition_passed (cpu : ARM7TDMI) (cond : Nat) : Bool :=
  let n := cpu.cpsr.testBit CPSR_N
  let z := cpu.cpsr.testBit CPSR_Z
  let c := cpu.cpsr.testBit CPSR_C
  let v := cpu.cpsr.testBit CPSR_V
  if cond = 0x0 then z
  else if cond = 0x1 then !z
  else if cond = 0x2 then c
  else if cond = 0x3 then !c
  else if cond = 0x4 then n
  else if cond = 0x5 then !n
  else if cond = 0x6 then v
  else if cond = 0x7 then !v
  else if cond = 0x8 then c && !z
  else if cond = 0x9 then !c || z
  else if cond = 0xA then n == v
  else if cond = 0xB then n != v
  else if cond = 0xC then !z && (n == v)
  else if cond = 0xD then z || (n != v)
  else if cond = 0xE then true
  else if cond = 0xF then true
  else false

/-- The type of instruction executors (`arm_execute` / `thumb_execute`):
they mutate CPU and bus and return a cycle count. -/
def Executor : Type := ARM7TDMI → Bus → Nat → ARM7TDMI × Bus × Nat

/-- `cpu_step`, execute-first variant.  With an invalid pipeline: two
fetches refill it, PC advances by twice the instruction width, cost 2
cycles.  Otherwise: execute `pipeline[0]` (through the condition check in
ARM state), then — only if the pipeline is still valid — shift
`pipeline[1]` into `pipeline[0]` and fetch a fresh `pipeline[1]` at PC,
advancing PC by the instruction width. -/
def cpu_step (armExec thumbExec : Executor) (cpu : ARM7TDMI) (bus : Bus) :
    ARM7TDMI × Bus × Nat :=
  if !cpu.pipeline_valid then
    if cpu.cpsr.testBit CPSR_T then
      let r0 := bus_read16 bus (cpu.regs REG_PC)
      let r1 := bus_read16 r0.2 (u32 (cpu.regs REG_PC + 2))
      ({ cpu with pipeline0 := r0.1, pipeline1 := r1.1,
                  regs := Function.update cpu.regs REG_PC (u32 (cpu.regs REG_PC + 4)),
                  pipeline_valid := true }, r1.2, 2)
    else
      let r0 := bus_read32 bus (cpu.regs REG_PC)
      let r1 := bus_read32 r0.2 (u32 (cpu.regs REG_PC + 4))
      ({ cpu with pipeline0 := r0.1, pipeline1 := r1.1,
                  regs := Function.update cpu.regs REG_PC (u32 (cpu.regs REG_PC + 8)),
                  pipeline_valid := true }, r1.2, 2)
  else if cpu.cpsr.testBit CPSR_T then
    let e := thumbExec cpu bus (u16 cpu.pipeline0)
    if e.1.pipeline_valid then
      let r := bus_read16 e.2.1 (e.1.regs REG_PC)
      ({ e.1 with pipeline0 := e.1.pipeline1, pipeline1 := r.1,
                  regs := Function.update e.1.regs REG_PC (u32 (e.1.regs REG_PC + 2)) },
       r.2, e.2.2)
    else e
  else
    let e := if cpu_condition_passed cpu ((cpu.pipeline0 >>> 28) &&& 0xF)
             then armExec cpu bus cpu.pipeline0
             else (cpu, bus, 1)
    if e.1.pipeline_valid then
      let r := bus_read32 e.2.1 (e.1.regs REG_PC)
      ({ e.1 with pipeline0 := e.1.pipeline1, pipeline1 := r.1,
                  regs := Function.update e.1.regs REG_PC (u32 (e.1.regs REG_PC + 4)) },
       r.2, e.2.2)
    else e

/-- Execution of `pipeline[0]`: Thumb dispatch, or ARM dispatch through
the condition check (a failed predicate costs 1 cycle and changes
nothing). -/
def cpu_exec_dispatch (armExec thumbExec : Executor) (cpu : ARM7TDMI) (bus : Bus) :
    ARM7TDMI × Bus × Nat :=
  if cpu.cpsr.testBit CPSR_T then thumbExec cpu bus (u16 cpu.pipeline0)
  else if cpu_condition_passed cpu ((cpu.pipeline0 >>> 28) &&& 0xF)
       then armExec cpu bus cpu.pipeline0
       else (cpu, bus, 1)

/-- The post-execute pipeline advance: shift `pipeline[1]` into
`pipeline[0]`, fetch a new `pipeline[1]` at PC, advance PC by the
instruction width. -/
def cpu_pipeline_advance (thumb : Bool) (cpu : ARM7TDMI) (bus : Bus) (cycles : Nat) :
    ARM7TDMI × Bus × Nat :=
  if thumb then
    let r := bus_read16 bus (cpu.regs REG_PC)
    ({ cpu with pipeline0 := cpu.pipeline1, pipeline1 := r.1,
                regs := Function.update cpu.regs REG_PC (u32 (cpu.regs REG_PC + 2)) },
     r.2, cycles)
  else
    let r := bus_read32 bus (cpu.regs REG_PC)
    ({ cpu with pipeline0 := cpu.pipeline1, pipeline1 := r.1,
                regs := Function.update cpu.regs REG_PC (u32 (cpu.regs REG_PC + 4)) },
     r.2, cycles)

/-- C1: one `cpu_step`.  (a) With an invalid pipeline at entry the step is
a pure two-fetch refill: it is independent of the executors (nothing
executes), costs exactly 2 cycles, marks the pipeline valid, advances PC
by twice the instruction width and fills both slots from the bus at PC
and PC + width.  (b) With a valid pipeline it executes `pipeline[0]`
first and only afterwards — and only if the execution left the pipeline
valid — shifts and refetches. -/
theorem C1_cpu_step_order (armExec thumbExec : Executor)
    (cpu : ARM7TDMI) (bus : Bus) :
    (cpu.pipeline_valid = false →
      (∀ aE tE, cpu_step aE tE cpu bus = cpu_step armExec thumbExec cpu bus) ∧
      (cpu_step armExec thumbExec cpu bus).2.2 = 2 ∧
      (cpu_step armExec thumbExec cpu bus).1.pipeline_valid = true ∧
      (cpu_step armExec thumbExec cpu bus).1.regs REG_PC
        = u32 (cpu.regs REG_PC + 2 * (if cpu.cpsr.testBit CPSR_T then 2 else 4)) ∧
      (cpu_step armExec thumbExec cpu bus).1.pipeline0
        = (if cpu.cpsr.testBit CPSR_T
           then (bus_read16 bus (cpu.regs REG_PC)).1
           else (bus_read32 bus (cpu.regs REG_PC)).1) ∧
      (cpu_step armExec thumbExec cpu bus).1.pipeline1
        = (if cpu.cpsr.testBit CPSR_T
           then (bus_read16 (bus_read16 bus (cpu.regs REG_PC)).2
                  (u32 (cpu.regs REG_PC + 2))).1
           else (bus_read32 (bus_read32 bus (cpu.regs REG_PC)).2
                  (u32 (cpu.regs REG_PC + 4))).1)) ∧
    (cpu.pipeline_valid = true →
      cpu_step armExec thumbExec cpu bus
        = (let e := cpu_exec_dispatch armExec thumbExec cpu bus
           if e.1.pipeline_valid
           then cpu_pipeline_advance (cpu.cpsr.testBit CPSR_T) e.1 e.2.1 e.2.2
           else e)) := by
  constructor
  · intro h
    cases ht : cpu.cpsr.testBit CPSR_T <;>
      refine ⟨fun aE tE => ?_, ?_, ?_, ?_, ?_, ?_⟩ <;>
      simp [cpu_step, h, ht]
  · intro h
    cases ht : cpu.cpsr.testBit CPSR_T
    · cases hc : cpu_condition_passed cpu ((cpu.pipeline0 >>> 28) &&& 0xF) <;>
        simp [cpu_step, cpu_exec_dispatch, cpu_pipeline_advance, h, ht, hc]
    · simp [cpu_step, cpu_exec_dispatch, cpu_pipeline_advance, h, ht]

/-- Witness for C1: both branches of the step law applied at a concrete
CPU and bus (an invalid-pipeline state refills for 2 cycles; a
valid-pipeline state with a no-op executor shifts the pipeline). -/
theorem C1_cpu_step_order_witness :
    ((cpu_step (fun c b _ => (c, b, 1)) (fun c b _ => (c, b, 1))
        ⟨fun _ => 0, 0, fun _ => 0, fun _ => 0, 0, 0, false, false⟩
        ldrExampleBus).2.2 = 2) ∧
    (cpu_step (fun c b _ => (c, b, 1)) (fun c b _ => (c, b, 1))
        ⟨fun _ => 0, 0, fun _ => 0, fun _ => 0, 7, 9, true, false⟩
        ldrExampleBus
      = (let e := cpu_exec_dispatch (fun c b _ => (c, b, 1)) (fun c b _ => (c, b, 1))
               ⟨fun _ => 0, 0, fun _ => 0, fun _ => 0, 7, 9, true, false⟩ ldrExampleBus
         if e.1.pipeline_valid
         then cpu_pipeline_advance false e.1 e.2.1 e.2.2
         else e)) :=
  ⟨((C1_cpu_step_order (fun c b _ => (c, b, 1)) (fun c b _ => (c, b, 1))
      ⟨fun _ => 0, 0, fun _ => 0, fun _ => 0, 0, 0, false, false⟩ ldrExampleBus).1
      rfl).2.1,
   by
    have h := (C1_cpu_step_order (fun c b _ => (c, b, 1)) (fun c b _ => (c, b, 1))
      ⟨fun _ => 0, 0, fun _ => 0, fun _ => 0, 7, 9, true, false⟩ ldrExampleBus).2 rfl
    simpa using h⟩

/- ====================================================================
   Timers — src/timer/timer.c (the cascade-chaining variant with the
   audio-mixer notification, designated authoritative by the spec)
   ==================================================================== -/

/-- Timer state (timer.h). -/
structure Timer where
  counter : Nat
  reload : Nat
  control : Nat
  prescaler : Nat
  cascade : Bool
  irq_enable : Bool
  enabled : Bool
  prescaler_counter : Nat

/-- `prescaler_values[]`: {1, 64, 256, 1024} indexed by control bits 0-1. -/
def prescaler_values (n : Nat) : Nat :=
  if n = 0 then 1 else if n = 1 then 64 else if n = 2 then 256 else 1024

/-- `timer_write_reload`. -/
def timer_write_reload (t : Timer) (val : Nat) : Timer :=
  { t with reload := val }

/-- `timer_write_control`: decode fields; on the rising edge of enable,
reload the counter and clear the prescaler accumulator. -/
def timer_write_control (t : Timer) (val : Nat) : Timer :=
  let was_enabled := t.enabled
  let t1 := { t with control := val,
                     prescaler := prescaler_values (val &&& 3),
                     cascade := val.testBit 2,
                     irq_enable := val.testBit 6,
                     enabled := val.testBit 7 }
  if !was_enabled && t1.enabled then
    { t1 with counter := t1.reload, prescaler_counter := 0 }
  else t1

/-- IRQ_TIMER0..IRQ_TIMER3 are IF bits 3..6. -/
def timer_irq_bit (i : Nat) : Nat := 1 <<< (3 + i)

/-- The state `timer_tick` advances: the timer array, the interrupt
controller, and — as a ghost observation — the ordered list of
`apu_on_timer_overflow(apu, i)` notifications it issues. -/
structure TimerTickSt where
  timers : Nat → Timer
  ic : InterruptController
  apu_events : List Nat

/-- The overflow notifications of `timer_tick` (counter already reloaded
by the caller): raise the timer's IF bit when IRQ-enabled, then notify
the audio mixer. -/
def timer_overflow_notify (st : TimerTickSt) (i : Nat) : TimerTickSt :=
  let st1 := if (st.timers i).irq_enable
             then { st with ic := interrupt_request st.ic (timer_irq_bit i) }
             else st
  { st1 with apu_events := st1.apu_events ++ [i] }

/-- The cascade chain (`while (next < 4 && enabled && cascade)`), written
with an explicit countdown `fuel`; `timer_cascade_walk` passes
`fuel = 4 - next`, which the `next < 4` guard makes exact, so the fuel
never cuts the loop short — it only makes the recursion structural. -/
def timer_cascade_fuel : TimerTickSt → Nat → Nat → TimerTickSt
  | st, _, 0 => st
  | st, next, fuel + 1 =>
    if next < 4 ∧ (st.timers next).enabled ∧ (st.timers next).cascade then
      let t := st.timers next
      let c := u16 (t.counter + 1)
      if c = 0 then
        -- cascaded timer overflowed: reload, IRQ, notify mixer, continue
        let ts1 := Function.update st.timers next { t with counter := t.reload }
        timer_cascade_fuel (timer_overflow_notify { st with timers := ts1 } next) (next + 1) fuel
      else
        -- no overflow: store the incremented counter, chain stops
        { st with timers := Function.update st.timers next { t with counter := c } }
    else st

/-- Walk the cascade chain starting at timer `next`. -/
def timer_cascade_walk (st : TimerTickSt) (next : Nat) : TimerTickSt :=
  timer_cascade_fuel st next (4 - next)

/-- One counter increment of (non-cascade) timer `i` inside the prescaler
loop: on overflow reload, raise IRQ if enabled, notify the mixer, then
walk the cascade chain from `i + 1`. -/
def timer_increment (st : TimerTickSt) (i : Nat) : TimerTickSt :=
  let t := st.timers i
  let c := u16 (t.counter + 1)
  if c = 0 then
    let ts1 := Function.update st.timers i { t with counter := t.reload }
    timer_cascade_walk (timer_overflow_notify { st with timers := ts1 } i) (i + 1)
  else
    { st with timers := Function.update st.timers i { t with counter := c } }

/-- The prescaler loop (`while (prescaler_counter >= prescaler)`), with
`fuel` initialised to the accumulated count: every iteration consumes at
least one cycle (prescaler ≥ 1 is guarded), so the fuel never cuts the
loop short.  Returns the state and the remaining accumulator. -/
def timer_prescaler_fuel : TimerTickSt → Nat → Nat → Nat → TimerTickSt × Nat
  | st, _, pcnt, 0 => (st, pcnt)
  | st, i, pcnt, fuel + 1 =>
    if 0 < (st.timers i).prescaler ∧ (st.timers i).prescaler ≤ pcnt then
      timer_prescaler_fuel (timer_increment st i) i (pcnt - (st.timers i).prescaler) fuel
    else (st, pcnt)

/-- Per-timer body of `timer_tick`'s `for` loop: skip disabled or cascade
timers; otherwise accumulate the delivered cycles and run the prescaler
loop, storing back the remaining accumulator. -/
def timer_tick_one (st : TimerTickSt) (i : Nat) (cycles : Nat) : TimerTickSt :=
  if !(st.timers i).enabled || (st.timers i).cascade then st
  else
    let p := (st.timers i).prescaler_counter + cycles
    let r := timer_prescaler_fuel st i p p
    { r.1 with timers := Function.update r.1.timers i { r.1.timers i with prescaler_counter := r.2 } }

/-- `timer_tick`: the loop over the four timers. -/
def timer_tick (st : TimerTickSt) (cycles : Nat) : TimerTickSt :=
  timer_tick_one (timer_tick_one (timer_tick_one (timer_tick_one st 0 cycles) 1 cycles) 2 cycles) 3 cycles

/-- The specification's cascade scenario, built through the register
interface: timer 0 reload 0xFFFE, prescaler 1, enabled (control 0x80);
timer 1 cascade + enabled (control 0x84); timers 2 and 3 off. -/
def timerScenario : TimerTickSt :=
  let toff : Timer := ⟨0, 0, 0, 1, false, false, false, 0⟩
  let t0 := timer_write_control (timer_write_reload toff 0xFFFE) 0x80
  let t1 := timer_write_control toff 0x84
  { timers := fun i => if i = 0 then t0 else if i = 1 then t1 else toff,
    ic := ⟨false, 0, 0⟩, apu_events := [] }

/-- The state with timer `i`'s counter replaced by `c` (and nothing else
changed) — the shape of the counter writes inside `timer_tick`. -/
def timer_with_counter (st : TimerTickSt) (i c : Nat) : TimerTickSt :=
  { st with timers := Function.update st.timers i { st.timers i with counter := c } }

/-- C6: timer overflow processing.  On overflow the counter is reloaded
and then, in order, the timer's IF bit (bits 3..6) is raised when
IRQ-enabled, the audio mixer is notified, and the cascade chain is walked
from the next timer: the chain stops at the first timer that is not
enabled-and-cascade (or past timer 3); an enabled cascade timer is
incremented by one, and on its own overflow reloads, notifies and
continues.  On the spec's scenario (timer 0: prescaler 1, reload 0xFFFE,
enabled; timer 1: cascade + enabled), delivering 4 CPU cycles increments
timer 1's counter by exactly 2 (and the mixer hears two timer-0
overflows). -/
theorem C6_timer_overflow_cascade :
    (∀ (st : TimerTickSt) (i : Nat), u16 ((st.timers i).counter + 1) = 0 →
      timer_increment st i
        = timer_cascade_walk
            (timer_overflow_notify (timer_with_counter st i ((st.timers i).reload)) i)
            (i + 1)) ∧
    (∀ (st : TimerTickSt) (i : Nat),
      (timer_overflow_notify st i).ic.irf
        = (if (st.timers i).irq_enable then st.ic.irf ||| timer_irq_bit i
           else st.ic.irf) ∧
      (timer_overflow_notify st i).apu_events = st.apu_events ++ [i] ∧
      (timer_overflow_notify st i).timers = st.timers) ∧
    (∀ (st : TimerTickSt) (next : Nat),
      ¬(next < 4 ∧ (st.timers next).enabled ∧ (st.timers next).cascade) →
      timer_cascade_walk st next = st) ∧
    (∀ (st : TimerTickSt) (next : Nat),
      next < 4 → (st.timers next).enabled → (st.timers next).cascade →
      u16 ((st.timers next).counter + 1) ≠ 0 →
      timer_cascade_walk st next
        = timer_with_counter st next (u16 ((st.timers next).counter + 1))) ∧
    (∀ (st : TimerTickSt) (next : Nat),
      next < 4 → (st.timers next).enabled → (st.timers next).cascade →
      u16 ((st.timers next).counter + 1) = 0 →
      timer_cascade_walk st next
        = timer_cascade_walk
            (timer_overflow_notify (timer_with_counter st next ((st.timers next).reload)) next)
            (next + 1)) ∧
    (((timer_tick timerScenario 4).timers 1).counter = 2 ∧
     (timer_tick timerScenario 4).apu_events = [0, 0]) := by
  refine ⟨?_, ?_, ?_, ?_, ?_, by decide⟩
  · intro st i h
    simp only [timer_increment, timer_with_counter]
    rw [if_pos h]
  · intro st i
    by_cases h : (st.timers i).irq_enable <;>
      simp [timer_overflow_notify, interrupt_request, h]
  · intro st next h
    unfold timer_cascade_walk
    cases hf : 4 - next with
    | zero => simp [timer_cascade_fuel]
    | succ k => simp [timer_cascade_fuel, h]
  · intro st next h4 hen hcas hc
    unfold timer_cascade_walk
    have hf : 4 - next = (3 - next) + 1 := by omega
    rw [hf]
    simp only [timer_cascade_fuel, timer_with_counter]
    rw [if_pos ⟨h4, hen, hcas⟩, if_neg hc]
  · intro st next h4 hen hcas hc
    unfold timer_cascade_walk
    have hf : 4 - next = (3 - next) + 1 := by omega
    have hf2 : 4 - (next + 1) = 3 - next := by omega
    rw [hf, hf2]
    simp only [timer_cascade_fuel, timer_with_counter]
    rw [if_pos ⟨h4, hen, hcas⟩, if_pos hc]

/-- Witness for C6: the cascade-stop and overflow laws applied at concrete
states, discharging their hypotheses. -/
theorem C6_timer_overflow_cascade_witness :
    timer_cascade_walk timerScenario 4 = timerScenario ∧
    timer_cascade_walk timerScenario 1
      = timer_with_counter timerScenario 1 1 :=
  ⟨C6_timer_overflow_cascade.2.2.1 timerScenario 4 (by decide),
   C6_timer_overflow_cascade.2.2.2.1 timerScenario 1 (by decide) (by decide)
     (by decide) (by decide)⟩

/- ====================================================================
   DMA — src/memory/dma.c (the variant with the full transfer engine,
   FIFO special-casing and backing-store write-back)
   ==================================================================== -/

/-- DMA channel state (memory/dma.h).  The C field `repeat` is a Lean
keyword, hence `repeat_flag`. -/
structure DMAChannel where
  source : Nat
  dest : Nat
  source_latch : Nat
  dest_latch : Nat
  count : Nat
  control : Nat
  dest_adjust : Nat
  src_adjust : Nat
  repeat_flag : Bool
  transfer_32 : Bool
  timing : Nat
  irq_on_done : Bool
  enabled : Bool

/-- DMA controller state: four channels plus the `active_channel` marker. -/
structure DMAController where
  channels : Nat → DMAChannel
  active_channel : Int

/-- The memory side of the bus as the DMA engine sees it, abstracted over
a state type: `dma_execute` only calls `bus_read16/32` and
`bus_write16/32` and touches `bus->io_regs` directly. -/
structure MemOps (σ : Type) where
  read16 : σ → Nat → Nat × σ
  read32 : σ → Nat → Nat × σ
  write16 : σ → Nat → Nat → σ
  write32 : σ → Nat → Nat → σ

/-- The bus as seen from the DMA controller: abstract memory plus the
concrete raw `io_regs` backing array. -/
structure DmaBus (σ : Type) where
  mem : σ
  io_regs : Nat → Nat

/-- CNT_H high-byte offsets: DMA0=0xBB, DMA1=0xC7, DMA2=0xD3, DMA3=0xDF. -/
def cnt_h_hi (ch : Nat) : Nat :=
  if ch = 0 then 0xBB else if ch = 1 then 0xC7 else if ch = 2 then 0xD3 else 0xDF

/-- The transfer loop of `dma_execute` (structural recursion on the unit
count).  Each unit reads then writes through the bus at the current
source/destination and applies the address adjustments (uint32
increment/decrement, i.e. mod 2^32; FIFO keeps the destination fixed). -/
def dma_transfer_loop {σ : Type} (ops : MemOps σ) (use32 is_fifo : Bool)
    (src_adjust dest_adjust step : Nat) :
    Nat → Nat → Nat → σ → Nat × Nat × σ
  | 0, src, dst, mem => (src, dst, mem)
  | n + 1, src, dst, mem =>
    let r := if use32 then ops.read32 mem src else ops.read16 mem src
    let mem1 := if use32 then ops.write32 r.2 dst r.1 else ops.write16 r.2 dst r.1
    let src' := if src_adjust = 0 then u32 (src + step)
                else if src_adjust = 1 then u32 (src + 0x100000000 - step)
                else src
    let dst' := if is_fifo then dst
                else if dest_adjust = 0 then u32 (dst + step)
                else if dest_adjust = 1 then u32 (dst + 0x100000000 - step)
                else if dest_adjust = 2 then dst
                else u32 (dst + step)          -- 3: increment now, reload after
    dma_transfer_loop ops use32 is_fifo src_adjust dest_adjust step n src' dst' mem1

/-- `dma_execute`: run channel `ch`.  Disabled channels do nothing.  A
zero count means the maximum (0x4000, or 0x10000 on channel 3); FIFO
transfers (timing 3 on channels 1/2) force 4 units of 32 bits with a
fixed destination; addresses are masked to 27/28 bits; after the loop a
non-repeating (or immediate) channel is disabled, clearing the enable bit
in the channel, its control word, and the io_regs backing store; the
returned cycle count is 2 per unit. -/
def dma_execute {σ : Type} (ops : MemOps σ) (dma : DMAController)
    (ic : InterruptController) (bus : DmaBus σ) (ch : Nat) :
    DMAController × InterruptController × DmaBus σ × Nat :=
  let dc := dma.channels ch
  if !dc.enabled then (dma, ic, bus, 0)
  else
    let count1 := if dc.count = 0 then (if ch = 3 then 0x10000 else 0x4000) else dc.count
    let is_fifo := (dc.timing == 3) && (ch == 1 || ch == 2)
    let count := if is_fifo then 4 else count1
    let use32 := if is_fifo then true else dc.transfer_32
    let step := if use32 then 4 else 2
    let src_mask := if ch = 0 then 0x07FFFFFF else 0x0FFFFFFF
    let dst_mask := if ch = 3 then 0x0FFFFFFF else 0x07FFFFFF
    let r := dma_transfer_loop ops use32 is_fifo dc.src_adjust dc.dest_adjust step
               count (dc.source &&& src_mask) (dc.dest &&& dst_mask) bus.mem
    -- post-transfer: destination reload for mode 3 (increment+reload)
    let dst := if dc.dest_adjust = 3 ∧ is_fifo = false then dc.dest_latch else r.2.1
    let dc1 := { dc with source := r.1, dest := dst }
    -- fire IRQ if requested (DMA0..3 = IF bits 8..11)
    let ic1 := if dc1.irq_on_done then interrupt_request ic (1 <<< (8 + ch)) else ic
    if dc1.repeat_flag ∧ dc1.timing ≠ 0 then
      -- repeating DMA: stay enabled, wait for the next trigger
      ({ channels := Function.update dma.channels ch dc1, active_channel := -1 },
       ic1, { bus with mem := r.2.2 }, count * 2)
    else
      -- one-shot or immediate: disable after completion, and reflect the
      -- cleared enable bit in the io_regs backing store
      let dc2 := { dc1 with enabled := false, control := dc1.control &&& 0x7FFF }
      ({ channels := Function.update dma.channels ch dc2, active_channel := -1 },
       ic1,
       { mem := r.2.2,
         io_regs := Function.update bus.io_regs (cnt_h_hi ch)
                      (bus.io_regs (cnt_h_hi ch) &&& 0x7F) },
       count * 2)

/-- The channel state after `dma_write_control` decodes `val` (before any
latch or transfer). -/
def dma_decode_control (dc : DMAChannel) (val : Nat) : DMAChannel :=
  { dc with control := val,
            dest_adjust := (val >>> 5) &&& 3,
            src_adjust := (val >>> 7) &&& 3,
            repeat_flag := val.testBit 9,
            transfer_32 := val.testBit 10,
            timing := (val >>> 12) &&& 3,
            irq_on_done := val.testBit 14,
            enabled := val.testBit 15 }

/-- `dma_write_control`: decode the control word; on a rising edge of the
enable bit latch source/destination, and execute immediately when the
timing field is 0. -/
def dma_write_control {σ : Type} (ops : MemOps σ) (dma : DMAController)
    (ic : InterruptController) (bus : DmaBus σ) (ch : Nat) (val : Nat) :
    DMAController × InterruptController × DmaBus σ × Nat :=
  let dc := dma.channels ch
  let was_enabled := dc.enabled
  let dc1 := dma_decode_control dc val
  if !was_enabled && dc1.enabled then
    let dc2 := { dc1 with source := dc1.source_latch, dest := dc1.dest_latch }
    let dma2 : DMAController :=
      { dma with channels := Function.update dma.channels ch dc2 }
    if dc2.timing = 0 then dma_execute ops dma2 ic bus ch
    else (dma2, ic, bus, 0)
  else
    ({ dma with channels := Function.update dma.channels ch dc1 }, ic, bus, 0)

/-- Ghost observation of the DMA engine's bus traffic. -/
inductive DmaEvent where
  | r16 : Nat → DmaEvent
  | r32 : Nat → DmaEvent
  | w16 : Nat → Nat → DmaEvent
  | w32 : Nat → Nat → DmaEvent
deriving DecidableEq

/-- Whether an event is a 32-bit bus operation. -/
def DmaEvent.is32 : DmaEvent → Bool
  | .r32 _ => true
  | .w32 _ _ => true
  | _ => false

/-- A memory instantiation that logs every bus operation; reads return
`f addr`. -/
def logMemOps (f : Nat → Nat) : MemOps (List DmaEvent) where
  read16 := fun l a => (f a, l ++ [DmaEvent.r16 a])
  read32 := fun l a => (f a, l ++ [DmaEvent.r32 a])
  write16 := fun l a v => l ++ [DmaEvent.w16 a v]
  write32 := fun l a v => l ++ [DmaEvent.w32 a v]

theorem dma_transfer_loop_log_length (f : Nat → Nat) (use32 is_fifo : Bool)
    (sa da step : Nat) :
    ∀ (n src dst : Nat) (l : List DmaEvent),
      (dma_transfer_loop (logMemOps f) use32 is_fifo sa da step n src dst l).2.2.length
        = l.length + 2 * n := by
  intro n
  induction n with
  | zero => intro src dst l; rfl
  | succ k ih =>
    intro src dst l
    simp only [dma_transfer_loop]
    rw [ih]
    cases use32 <;> simp [logMemOps] <;> omega

theorem dma_transfer_loop_log_is32 (f : Nat → Nat) (is_fifo : Bool)
    (sa da step : Nat) :
    ∀ (n src dst : Nat) (l : List DmaEvent),
      (∀ e ∈ l, e.is32 = true) →
      ∀ e ∈ (dma_transfer_loop (logMemOps f) true is_fifo sa da step n src dst l).2.2,
        e.is32 = true := by
  intro n
  induction n with
  | zero => intro src dst l hl; exact hl
  | succ k ih =>
    intro src dst l hl
    simp only [dma_transfer_loop]
    apply ih
    intro e he
    simp only [logMemOps, Bool.true_eq, if_true, List.mem_append,
      List.mem_singleton] at he
    rcases he with (he | he) | he
    · exact hl e he
    · subst he; rfl
    · subst he; rfl

/-- The channel state after a rising-edge control write: decoded fields
with source/destination taken from the latches (`dc2` in
`dma_write_control`). -/
def dma_latched (dma : DMAController) (ch val : Nat) : DMAController :=
  let dc := dma_decode_control (dma.channels ch) val
  { dma with channels := Function.update dma.channels ch { dc with source := dc.source_latch, dest := dc.dest_latch } }

/-- C7: DMA immediate triggering and enable clearing.  Writing a control
word whose enable bit rises with timing 0 latches source/destination from
the latches and performs the whole transfer within the same control write
(before any further instruction executes); and any transfer that
completes without repeat (or with timing 0) clears the enable bit in the
channel state, in its control word, and in the io_regs backing store, so
a subsequent read of the control register high byte observes enable=0. -/
theorem C7_dma_immediate {σ : Type} (ops : MemOps σ) (dma : DMAController)
    (ic : InterruptController) (bus : DmaBus σ) (ch : Nat) (val : Nat) :
    ((dma.channels ch).enabled = false → val.testBit 15 = true →
      (val >>> 12) &&& 3 = 0 →
      dma_write_control ops dma ic bus ch val
        = dma_execute ops (dma_latched dma ch val) ic bus ch) ∧
    ((dma.channels ch).enabled = true →
      ¬((dma.channels ch).repeat_flag = true ∧ (dma.channels ch).timing ≠ 0) →
      ((dma_execute ops dma ic bus ch).1.channels ch).enabled = false ∧
      ((dma_execute ops dma ic bus ch).1.channels ch).control.testBit 15 = false ∧
      ((dma_execute ops dma ic bus ch).2.2.1.io_regs (cnt_h_hi ch)).testBit 7
        = false) := by
  constructor
  · intro h1 h2 h3
    have hdec : (dma_decode_control (dma.channels ch) val).enabled = true := h2
    have hdect : (dma_decode_control (dma.channels ch) val).timing = 0 := h3
    simp [dma_write_control, dma_latched, h1, hdec, hdect]
  · intro h1 h2
    have h2' : ¬((dma.channels ch).repeat_flag = true ∧ ¬(dma.channels ch).timing = 0) := h2
    simp only [dma_execute, h1, Bool.not_true, Bool.false_eq_true, if_false, h2']
    refine ⟨?_, ?_, ?_⟩
    · simp
    · simp
      have : ((0x7FFF : Nat)).testBit 15 = false := by decide
      simp [Nat.testBit_land, this]
    · simp
      intro _
      decide

/-- Concrete DMA fixtures for witnesses: channel with count 1, timing 0,
latches set, initially disabled / enabled. -/
def dmaChOn : DMAChannel :=
  ⟨0x02000000, 0x03000000, 0x02000000, 0x03000000, 1, 0x8000, 0, 0, false, false, 0, false, true⟩

def dmaChOff : DMAChannel := { dmaChOn with enabled := false, control := 0 }

def dmaCtlOn : DMAController := ⟨fun _ => dmaChOn, -1⟩

def dmaCtlOff : DMAController := ⟨fun _ => dmaChOff, -1⟩

def dmaBusLog : DmaBus (List DmaEvent) := ⟨[], fun _ => 0xFF⟩

def icOff : InterruptController := ⟨false, 0, 0⟩

/-- Witness for C7: both halves applied at a concrete controller,
discharging the rising-edge and non-repeat hypotheses. -/
theorem C7_dma_immediate_witness :
    (dma_write_control (logMemOps fun _ => 0) dmaCtlOff icOff dmaBusLog 0 0x8000
      = dma_execute (logMemOps fun _ => 0) (dma_latched dmaCtlOff 0 0x8000)
          icOff dmaBusLog 0) ∧
    ((dma_execute (logMemOps fun _ => 0) dmaCtlOn icOff dmaBusLog 0).1.channels 0).enabled
      = false :=
  ⟨(C7_dma_immediate (logMemOps fun _ => 0) dmaCtlOff icOff dmaBusLog 0 0x8000).1
      (by decide) (by decide) (by decide),
   ((C7_dma_immediate (logMemOps fun _ => 0) dmaCtlOn icOff dmaBusLog 0 0).2
      (by decide) (by decide)).1⟩

/-- C10: a zero transfer count means the maximum unit count — 0x4000 for
channels 0..2 and 0x10000 for channel 3 — and a FIFO-mode transfer
(timing 3 on channel 1 or 2) always moves exactly 4 units of 32 bits.
Units are observable both through the returned cycle cost (2 per unit)
and, with the logging memory, as exactly one read and one write per
unit, all of them 32-bit operations in FIFO mode. -/
theorem C10_dma_zero_count {σ : Type} (ops : MemOps σ) (dma : DMAController)
    (ic : InterruptController) (bus : DmaBus σ) (ch : Nat)
    (hen : (dma.channels ch).enabled = true) :
    ((dma.channels ch).count = 0 →
      (((dma.channels ch).timing == 3) && ((ch == 1) || (ch == 2))) = false →
      (dma_execute ops dma ic bus ch).2.2.2
        = (if ch = 3 then 0x10000 else 0x4000) * 2) ∧
    ((((dma.channels ch).timing == 3) && ((ch == 1) || (ch == 2))) = true →
      (dma_execute ops dma ic bus ch).2.2.2 = 4 * 2) ∧
    (∀ (f io : Nat → Nat),
      (dma_execute (logMemOps f) dma ic ⟨[], io⟩ ch).2.2.1.mem.length
        = 2 * (if (((dma.channels ch).timing == 3) && ((ch == 1) || (ch == 2))) = true
               then 4
               else if (dma.channels ch).count = 0
                    then (if ch = 3 then 0x10000 else 0x4000)
                    else (dma.channels ch).count)) ∧
    (∀ (f io : Nat → Nat),
      (((dma.channels ch).timing == 3) && ((ch == 1) || (ch == 2))) = true →
      ∀ e ∈ (dma_execute (logMemOps f) dma ic ⟨[], io⟩ ch).2.2.1.mem,
        e.is32 = true) := by
  refine ⟨?_, ?_, ?_, ?_⟩
  · intro hc hf
    simp only [dma_execute, hen, Bool.not_true, Bool.false_eq_true, if_false,
      hc, hf, if_true]
    split <;> simp
  · intro hf
    simp only [dma_execute, hen, Bool.not_true, Bool.false_eq_true, if_false,
      hf, if_true]
    split <;> simp
  · intro f io
    simp only [dma_execute, hen, Bool.not_true, Bool.false_eq_true, if_false]
    split <;> simp [dma_transfer_loop_log_length]
  · intro f io hf
    simp only [dma_execute, hen, Bool.not_true, Bool.false_eq_true, if_false, hf]
    split <;>
      · intro e he
        simp only [if_true] at he
        exact dma_transfer_loop_log_is32 f _ _ _ _ _ _ _ [] (by simp) e he

def dmaChZero : DMAChannel := { dmaChOn with count := 0 }

def dmaCtlZero : DMAController := ⟨fun _ => dmaChZero, -1⟩

/-- A FIFO-mode channel 1 (timing 3) for the witness. -/
def dmaChFifo : DMAChannel := { dmaChOn with timing := 3, count := 11 }

def dmaCtlFifo : DMAController := ⟨fun _ => dmaChFifo, -1⟩

/-- Witness for C10: the zero-count maximum and the FIFO 4-unit rule at
concrete channels, discharging the enabled / fifo-mode hypotheses. -/
theorem C10_dma_zero_count_witness :
    ((dma_execute (logMemOps fun _ => 0) dmaCtlZero icOff dmaBusLog 0).2.2.2
      = 0x4000 * 2) ∧
    ((dma_execute (logMemOps fun _ => 0) dmaCtlFifo icOff dmaBusLog 1).2.2.2
      = 4 * 2) :=
  ⟨(C10_dma_zero_count (logMemOps fun _ => 0) dmaCtlZero icOff dmaBusLog 0
      (by decide)).1 (by decide) (by decide),
   (C10_dma_zero_count (logMemOps fun _ => 0) dmaCtlFifo icOff dmaBusLog 1
      (by decide)).2.1 (by decide)⟩

/- ====================================================================
   APU FIFOs — src/apu/apu.c
   ==================================================================== -/

def FIFO_SIZE : Nat := 32

/-- Sample FIFO state (apu.h): a 32-slot ring of signed 8-bit samples
with read/write indices, fill count, driving-timer id, and the
last-output latch held on underflow. -/
structure FIFO where
  buffer : Nat → Int
  read_idx : Nat
  write_idx : Nat
  count : Nat
  timer_id : Nat
  last_sample : Int

/-- The APU state that `apu_on_timer_overflow` touches, plus a ghost list
of the `dma_on_fifo(dma, fifo_id)` calls it makes. -/
structure APU where
  fifo_a : FIFO
  fifo_b : FIFO
  fifo_a_latch : Int
  fifo_b_latch : Int
  dma_events : List Nat

/-- `apu_fifo_pop`: an empty FIFO yields the last-output latch and changes
nothing; otherwise pop one sample, advance the read index mod 32, and
record the sample as the last output. -/
def apu_fifo_pop (apu : APU) (fifo_id : Nat) : Int × APU :=
  let fifo := if fifo_id = 0 then apu.fifo_a else apu.fifo_b
  if fifo.count = 0 then (fifo.last_sample, apu)
  else
    let sample := fifo.buffer fifo.read_idx
    let fifo' := { fifo with read_idx := (fifo.read_idx + 1) % FIFO_SIZE,
                             count := fifo.count - 1,
                             last_sample := sample }
    (sample,
     if fifo_id = 0 then { apu with fifo_a := fifo' } else { apu with fifo_b := fifo' })

/-- The FIFO A block of `apu_on_timer_overflow`: if FIFO A's source timer
matches, pop one sample into the output latch and trigger refill DMA when
the count after the pop is at or below 16. -/
def apu_overflow_fifo_a (apu : APU) (timer_id : Nat) : APU :=
  if apu.fifo_a.timer_id = timer_id then
    let r := apu_fifo_pop apu 0
    let a2 : APU := { r.2 with fifo_a_latch := r.1 }
    if a2.fifo_a.count ≤ 16 then { a2 with dma_events := a2.dma_events ++ [0] }
    else a2
  else apu

/-- The FIFO B block of `apu_on_timer_overflow`. -/
def apu_overflow_fifo_b (apu : APU) (timer_id : Nat) : APU :=
  if apu.fifo_b.timer_id = timer_id then
    let r := apu_fifo_pop apu 1
    let b2 : APU := { r.2 with fifo_b_latch := r.1 }
    if b2.fifo_b.count ≤ 16 then { b2 with dma_events := b2.dma_events ++ [1] }
    else b2
  else apu

/-- `apu_on_timer_overflow`: FIFO A's block, then FIFO B's. -/
def apu_on_timer_overflow (apu : APU) (timer_id : Nat) : APU :=
  apu_overflow_fifo_b (apu_overflow_fifo_a apu timer_id) timer_id

theorem ofa_fifo_b (apu : APU) (t : Nat) :
    (apu_overflow_fifo_a apu t).fifo_b = apu.fifo_b := by
  by_cases h : apu.fifo_a.timer_id = t <;>
  by_cases h0 : apu.fifo_a.count = 0 <;>
    simp [apu_overflow_fifo_a, apu_fifo_pop, h, h0] <;>
    split <;> rfl

theorem ofa_fifo_b_latch (apu : APU) (t : Nat) :
    (apu_overflow_fifo_a apu t).fifo_b_latch = apu.fifo_b_latch := by
  by_cases h : apu.fifo_a.timer_id = t <;>
  by_cases h0 : apu.fifo_a.count = 0 <;>
    simp [apu_overflow_fifo_a, apu_fifo_pop, h, h0] <;>
    split <;> rfl

theorem ofb_fifo_a (apu : APU) (t : Nat) :
    (apu_overflow_fifo_b apu t).fifo_a = apu.fifo_a := by
  by_cases h : apu.fifo_b.timer_id = t <;>
  by_cases h0 : apu.fifo_b.count = 0 <;>
    simp [apu_overflow_fifo_b, apu_fifo_pop, h, h0] <;>
    split <;> rfl

theorem ofb_fifo_a_latch (apu : APU) (t : Nat) :
    (apu_overflow_fifo_b apu t).fifo_a_latch = apu.fifo_a_latch := by
  by_cases h : apu.fifo_b.timer_id = t <;>
  by_cases h0 : apu.fifo_b.count = 0 <;>
    simp [apu_overflow_fifo_b, apu_fifo_pop, h, h0] <;>
    split <;> rfl

theorem ofa_events (apu : APU) (t : Nat) :
    (apu_overflow_fifo_a apu t).dma_events
      = apu.dma_events
        ++ (if apu.fifo_a.timer_id = t ∧ apu.fifo_a.count - 1 ≤ 16
            then [0] else []) := by
  by_cases h : apu.fifo_a.timer_id = t <;>
  by_cases h0 : apu.fifo_a.count = 0 <;>
  by_cases h16 : apu.fifo_a.count - 1 ≤ 16 <;>
    simp [apu_overflow_fifo_a, apu_fifo_pop, h, h0, h16] <;>
    omega

theorem ofb_events (apu : APU) (t : Nat) :
    (apu_overflow_fifo_b apu t).dma_events
      = apu.dma_events
        ++ (if apu.fifo_b.timer_id = t ∧ apu.fifo_b.count - 1 ≤ 16
            then [1] else []) := by
  by_cases h : apu.fifo_b.timer_id = t <;>
  by_cases h0 : apu.fifo_b.count = 0 <;>
  by_cases h16 : apu.fifo_b.count - 1 ≤ 16 <;>
    simp [apu_overflow_fifo_b, apu_fifo_pop, h, h0, h16] <;>
    omega

theorem ofa_a_zero (apu : APU) (t : Nat) (h : apu.fifo_a.timer_id = t)
    (h0 : apu.fifo_a.count = 0) :
    (apu_overflow_fifo_a apu t).fifo_a = apu.fifo_a ∧
    (apu_overflow_fifo_a apu t).fifo_a_latch = apu.fifo_a.last_sample := by
  simp [apu_overflow_fifo_a, apu_fifo_pop, h, h0]

theorem ofa_a_pos (apu : APU) (t : Nat) (h : apu.fifo_a.timer_id = t)
    (h0 : apu.fifo_a.count ≠ 0) :
    (apu_overflow_fifo_a apu t).fifo_a
      = { apu.fifo_a with
            read_idx := (apu.fifo_a.read_idx + 1) % FIFO_SIZE,
            count := apu.fifo_a.count - 1,
            last_sample := apu.fifo_a.buffer apu.fifo_a.read_idx } ∧
    (apu_overflow_fifo_a apu t).fifo_a_latch
      = apu.fifo_a.buffer apu.fifo_a.read_idx := by
  by_cases h16 : apu.fifo_a.count - 1 ≤ 16 <;>
    simp [apu_overflow_fifo_a, apu_fifo_pop, h, h0, h16]

theorem ofa_a_skip (apu : APU) (t : Nat) (h : apu.fifo_a.timer_id ≠ t) :
    apu_overflow_fifo_a apu t = apu := by
  simp [apu_overflow_fifo_a, h]

theorem ofb_b_zero (apu : APU) (t : Nat) (h : apu.fifo_b.timer_id = t)
    (h0 : apu.fifo_b.count = 0) :
    (apu_overflow_fifo_b apu t).fifo_b = apu.fifo_b ∧
    (apu_overflow_fifo_b apu t).fifo_b_latch = apu.fifo_b.last_sample := by
  simp [apu_overflow_fifo_b, apu_fifo_pop, h, h0]

theorem ofb_b_pos (apu : APU) (t : Nat) (h : apu.fifo_b.timer_id = t)
    (h0 : apu.fifo_b.count ≠ 0) :
    (apu_overflow_fifo_b apu t).fifo_b
      = { apu.fifo_b with
            read_idx := (apu.fifo_b.read_idx + 1) % FIFO_SIZE,
            count := apu.fifo_b.count - 1,
            last_sample := apu.fifo_b.buffer apu.fifo_b.read_idx } ∧
    (apu_overflow_fifo_b apu t).fifo_b_latch
      = apu.fifo_b.buffer apu.fifo_b.read_idx := by
  by_cases h16 : apu.fifo_b.count - 1 ≤ 16 <;>
    simp [apu_overflow_fifo_b, apu_fifo_pop, h, h0, h16]

theorem ofb_b_skip (apu : APU) (t : Nat) (h : apu.fifo_b.timer_id ≠ t) :
    apu_overflow_fifo_b apu t = apu := by
  simp [apu_overflow_fifo_b, h]

/-- An APU whose FIFO A holds 17 samples and is driven by timer 0 (FIFO B
is driven by timer 1 and stays out of the way). -/
def apu17 : APU :=
  { fifo_a := ⟨fun _ => 3, 0, 17, 17, 0, 0⟩,
    fifo_b := ⟨fun _ => 0, 0, 0, 0, 1, 0⟩,
    fifo_a_latch := 0, fifo_b_latch := 0, dma_events := [] }

/-- Counterexample to C9 as stated: popping FIFO A from 17 samples leaves
16 — exactly half capacity, not *below* it — yet the refill-DMA trigger
fires, because the code tests `count <= 16`, not `count < 16`. -/
theorem C9_fifo_refill_cex :
    (apu_on_timer_overflow apu17 0).fifo_a.count = 16 ∧
    ¬((apu_on_timer_overflow apu17 0).fifo_a.count < 16) ∧
    (apu_on_timer_overflow apu17 0).dma_events = [0] := by
  decide


/-- C9 (amended): on a timer overflow, exactly the FIFOs whose source
timer matches pop one sample (an empty FIFO yields its last-output latch
and is left unchanged), and the FIFO-refill DMA trigger fires if and only
if the FIFO's count after the pop is at or below half capacity (16 of 32
slots or fewer). -/
theorem C9_fifo_timer_overflow (apu : APU) (t : Nat) :
    (apu.fifo_a.timer_id = t → apu.fifo_a.count = 0 →
      (apu_on_timer_overflow apu t).fifo_a = apu.fifo_a ∧
      (apu_on_timer_overflow apu t).fifo_a_latch = apu.fifo_a.last_sample) ∧
    (apu.fifo_a.timer_id = t → apu.fifo_a.count ≠ 0 →
      (apu_on_timer_overflow apu t).fifo_a.count = apu.fifo_a.count - 1 ∧
      (apu_on_timer_overflow apu t).fifo_a.read_idx
        = (apu.fifo_a.read_idx + 1) % FIFO_SIZE ∧
      (apu_on_timer_overflow apu t).fifo_a_latch
        = apu.fifo_a.buffer apu.fifo_a.read_idx) ∧
    (apu.fifo_a.timer_id ≠ t →
      (apu_on_timer_overflow apu t).fifo_a = apu.fifo_a ∧
      (apu_on_timer_overflow apu t).fifo_a_latch = apu.fifo_a_latch) ∧
    (apu.fifo_b.timer_id = t → apu.fifo_b.count = 0 →
      (apu_on_timer_overflow apu t).fifo_b = apu.fifo_b ∧
      (apu_on_timer_overflow apu t).fifo_b_latch = apu.fifo_b.last_sample) ∧
    (apu.fifo_b.timer_id = t → apu.fifo_b.count ≠ 0 →
      (apu_on_timer_overflow apu t).fifo_b.count = apu.fifo_b.count - 1 ∧
      (apu_on_timer_overflow apu t).fifo_b.read_idx
        = (apu.fifo_b.read_idx + 1) % FIFO_SIZE ∧
      (apu_on_timer_overflow apu t).fifo_b_latch
        = apu.fifo_b.buffer apu.fifo_b.read_idx) ∧
    (apu.fifo_b.timer_id ≠ t →
      (apu_on_timer_overflow apu t).fifo_b = apu.fifo_b ∧
      (apu_on_timer_overflow apu t).fifo_b_latch = apu.fifo_b_latch) ∧
    ((apu_on_timer_overflow apu t).dma_events
      = apu.dma_events
        ++ (if apu.fifo_a.timer_id = t ∧ apu.fifo_a.count - 1 ≤ 16 then [0] else [])
        ++ (if apu.fifo_b.timer_id = t ∧ apu.fifo_b.count - 1 ≤ 16 then [1] else [])) := by
  unfold apu_on_timer_overflow
  refine ⟨?_, ?_, ?_, ?_, ?_, ?_, ?_⟩
  · intro h h0
    rw [ofb_fifo_a, ofb_fifo_a_latch]
    exact ofa_a_zero apu t h h0
  · intro h h0
    rw [ofb_fifo_a, ofb_fifo_a_latch, (ofa_a_pos apu t h h0).1,
      (ofa_a_pos apu t h h0).2]
    exact ⟨rfl, rfl, rfl⟩
  · intro h
    rw [ofb_fifo_a, ofb_fifo_a_latch, ofa_a_skip apu t h]
    exact ⟨rfl, rfl⟩
  · intro h h0
    have hb : (apu_overflow_fifo_a apu t).fifo_b = apu.fifo_b := ofa_fifo_b apu t
    have h' : (apu_overflow_fifo_a apu t).fifo_b.timer_id = t := by rw [hb]; exact h
    have h0' : (apu_overflow_fifo_a apu t).fifo_b.count = 0 := by rw [hb]; exact h0
    rw [(ofb_b_zero _ t h' h0').1, (ofb_b_zero _ t h' h0').2, hb]
    exact ⟨rfl, rfl⟩
  · intro h h0
    have hb : (apu_overflow_fifo_a apu t).fifo_b = apu.fifo_b := ofa_fifo_b apu t
    have h' : (apu_overflow_fifo_a apu t).fifo_b.timer_id = t := by rw [hb]; exact h
    have h0' : (apu_overflow_fifo_a apu t).fifo_b.count ≠ 0 := by rw [hb]; exact h0
    rw [(ofb_b_pos _ t h' h0').1, (ofb_b_pos _ t h' h0').2, hb]
    exact ⟨rfl, rfl, rfl⟩
  · intro h
    have hb : (apu_overflow_fifo_a apu t).fifo_b = apu.fifo_b := ofa_fifo_b apu t
    have h' : (apu_overflow_fifo_a apu t).fifo_b.timer_id ≠ t := by rw [hb]; exact h
    rw [ofb_b_skip _ t h']
    exact ⟨ofa_fifo_b apu t, ofa_fifo_b_latch apu t⟩
  · rw [ofb_events, ofa_events, ofa_fifo_b]

/-- Witness for C9: the amended rule at `apu17` (timer 0 matches FIFO A,
whose 17 samples leave 16 after the pop and trigger the refill DMA). -/
theorem C9_fifo_timer_overflow_witness :
    (apu_on_timer_overflow apu17 0).fifo_a.count = apu17.fifo_a.count - 1 ∧
    (apu_on_timer_overflow apu17 0).dma_events
      = apu17.dma_events
        ++ (if apu17.fifo_a.timer_id = 0 ∧ apu17.fifo_a.count - 1 ≤ 16 then [0] else [])
        ++ (if apu17.fifo_b.timer_id = 0 ∧ apu17.fifo_b.count - 1 ≤ 16 then [1] else []) :=
  ⟨((C9_fifo_timer_overflow apu17 0).2.1 (by decide) (by decide)).1,
   (C9_fifo_timer_overflow apu17 0).2.2.2.2.2.2⟩

/- ====================================================================
   PPU frame scheduler — gba.c (gba_run_frame) and ppu.c
   ==================================================================== -/

def TOTAL_LINES : Nat := 228
def VDRAW_LINES : Nat := 160
def SCANLINE_CYCLES : Nat := 1232
def IRQ_VBLANK : Nat := 1
def IRQ_HBLANK : Nat := 2
def IRQ_VCOUNT : Nat := 4

/-- The PPU fields the frame scheduler reads and writes. -/
structure PPU where
  vcount : Nat
  dispstat : Nat

/-- `ppu_set_hblank`: set or clear DISPSTAT bit 1 (`&= ~(1 << 1)` on a
`uint16_t`, i.e. `&&& (0xFFFF ^^^ 2)`). -/
def ppu_set_hblank (ppu : PPU) (active : Bool) : PPU :=
  if active then { ppu with dispstat := ppu.dispstat ||| (1 <<< 1) }
  else { ppu with dispstat := ppu.dispstat &&& (0xFFFF ^^^ (1 <<< 1)) }

/-- `ppu_set_vblank`: set or clear DISPSTAT bit 0. -/
def ppu_set_vblank (ppu : PPU) (active : Bool) : PPU :=
  if active then { ppu with dispstat := ppu.dispstat ||| (1 <<< 0) }
  else { ppu with dispstat := ppu.dispstat &&& (0xFFFF ^^^ (1 <<< 0)) }

/-- `ppu_increment_vcount`: wrap to 0 at TOTAL_LINES. -/
def ppu_increment_vcount (ppu : PPU) : PPU :=
  if TOTAL_LINES ≤ u16 (ppu.vcount + 1) then { ppu with vcount := 0 }
  else { ppu with vcount := u16 (ppu.vcount + 1) }

/-- `ppu_vcount_match`: compare VCOUNT with the DISPSTAT target (bits
8-15), set or clear the match flag (bit 2), and report a match that has
its IRQ enabled (bit 5). -/
def ppu_vcount_match (ppu : PPU) : PPU × Bool :=
  let target := (ppu.dispstat >>> 8) &&& 0xFF
  if ppu.vcount = target then
    ({ ppu with dispstat := ppu.dispstat ||| (1 <<< 2) }, ppu.dispstat.testBit 5)
  else
    ({ ppu with dispstat := ppu.dispstat &&& (0xFFFF ^^^ (1 <<< 2)) }, false)

/-- `interrupt_request_if_enabled`: the PPU-related IRQs are gated on
their DISPSTAT enable bits (3/4/5).  Also reports (as a ghost
observation; the C function returns void) whether the request fired. -/
def interrupt_request_if_enabled (ppu : PPU) (ic : InterruptController)
    (irq_bit : Nat) : InterruptController × Bool :=
  if irq_bit = IRQ_VBLANK ∧ ppu.dispstat.testBit 3 = false then (ic, false)
  else if irq_bit = IRQ_HBLANK ∧ ppu.dispstat.testBit 4 = false then (ic, false)
  else if irq_bit = IRQ_VCOUNT ∧ ppu.dispstat.testBit 5 = false then (ic, false)
  else (interrupt_request ic irq_bit, true)

/-- Per-scanline ghost observation: VCOUNT after the increment, the
VBlank status flag, whether the VBlank IRQ was requested this line, and
the frame_complete flag. -/
structure LineRec where
  vcount : Nat
  vblank_flag : Bool
  vblank_irq : Bool
  fc : Bool
deriving DecidableEq

/-- The state `gba_run_frame` advances.  `trace` is a ghost log of one
`LineRec` per scanline. -/
structure GbaFrameSt where
  ppu : PPU
  ic : InterruptController
  frame_complete : Bool
  total_cycles : Nat
  trace : List LineRec

/-- One iteration of `gba_run_frame`'s scanline loop.  `cpu_run`,
`timer_tick`, `apu_tick`, `ppu_render_scanline` and the HBlank/VBlank DMA
triggers advance state outside this model; none of them writes `vcount`,
the DISPSTAT status bits, or `frame_complete` (VCOUNT is read-only
through the bus and DISPSTAT writes preserve bits 0-2), so they are
omitted here.  The affine reference-point reload at VBlank start touches
only PPU fields outside this model. -/
def gba_scanline (st : GbaFrameSt) : GbaFrameSt :=
  -- HDraw: cpu_run/timer_tick/apu_tick (external to this model)
  let p1 := ppu_set_hblank st.ppu true
  -- render + HBlank DMA for visible lines (external), HBlank IRQ:
  let r1 := interrupt_request_if_enabled p1 st.ic IRQ_HBLANK
  -- HBlank: cpu_run/timer_tick/apu_tick (external)
  let p2 := ppu_set_hblank p1 false
  let p3 := ppu_increment_vcount p2
  let m := ppu_vcount_match p3
  let ic2 := if m.2 then (interrupt_request_if_enabled m.1 r1.1 IRQ_VCOUNT).1
             else r1.1
  -- VBlank start
  let s5 : PPU × InterruptController × Bool × Bool :=
    if m.1.vcount = VDRAW_LINES then
      let p5 := ppu_set_vblank m.1 true
      let rv := interrupt_request_if_enabled p5 ic2 IRQ_VBLANK
      (p5, rv.1, rv.2, true)
    else (m.1, ic2, false, st.frame_complete)
  -- VBlank end (wrap around)
  let p6 := if s5.1.vcount = 0 then ppu_set_vblank s5.1 false else s5.1
  { ppu := p6, ic := s5.2.1, frame_complete := s5.2.2.2,
    total_cycles := st.total_cycles + SCANLINE_CYCLES,
    trace := st.trace
      ++ [⟨p6.vcount, p6.dispstat.testBit 0, s5.2.2.1, s5.2.2.2⟩] }

/-- The scanline loop, structurally recursive on the line count. -/
def gba_run_lines : Nat → GbaFrameSt → GbaFrameSt
  | 0, st => st
  | n + 1, st => gba_run_lines n (gba_scanline st)

/-- `gba_run_frame`: clear `frame_complete`, then run all 228 scanlines.
(The ghost trace starts empty.) -/
def gba_run_frame (st : GbaFrameSt) : GbaFrameSt :=
  gba_run_lines TOTAL_LINES { st with frame_complete := false, trace := [] }

theorem u16_of_lt {v : Nat} (h : v < 2 ^ 16) : u16 v = v := by
  rw [u16_eq_mod]; exact Nat.mod_eq_of_lt h

theorem or_and_mask (d a M : Nat) (h : a &&& M = 0) :
    (d ||| a) &&& M = d &&& M := by
  rw [Nat.and_distrib_right, h, Nat.or_zero]

theorem and_and_mask (d m M : Nat) (h : m &&& M = M) :
    (d &&& m) &&& M = d &&& M := by
  rw [Nat.and_assoc, h]

theorem or_testBit_ne (d a : Nat) (i : Nat) (h : a.testBit i = false) :
    (d ||| a).testBit i = d.testBit i := by
  simp [Nat.testBit_or, h]

theorem and_testBit_keep (d m : Nat) (i : Nat) (h : m.testBit i = true) :
    (d &&& m).testBit i = d.testBit i := by
  simp [Nat.testBit_land, h]

theorem mask_testBit3 {d d0 : Nat} (hm : d &&& 0xFFF8 = d0 &&& 0xFFF8) :
    d.testBit 3 = d0.testBit 3 := by
  have h := congrArg (fun x => x.testBit 3) hm
  have hc : Nat.testBit 0xFFF8 3 = true := by decide
  simpa [Nat.testBit_land, hc] using h

theorem and_lt_two_pow16 {d : Nat} (m : Nat) (h : d < 2 ^ 16) :
    d &&& m < 2 ^ 16 :=
  Nat.lt_of_le_of_lt Nat.and_le_left h

def scanline_ppu_mid (p : PPU) : PPU :=
  (ppu_vcount_match (ppu_increment_vcount (ppu_set_hblank (ppu_set_hblank p true) false))).1

theorem mid_bit0 (p : PPU) :
    (scanline_ppu_mid p).dispstat.testBit 0 = p.dispstat.testBit 0 := by
  unfold scanline_ppu_mid ppu_vcount_match ppu_increment_vcount ppu_set_hblank
  have c2 : Nat.testBit 2 0 = false := by decide
  have c4 : Nat.testBit 4 0 = false := by decide
  have cd : Nat.testBit 65533 0 = true := by decide
  have cb : Nat.testBit 65531 0 = true := by decide
  simp
  split <;> split <;> simp [or_testBit_ne, and_testBit_keep, c2, c4, cd, cb]

theorem mid_mask (p : PPU) :
    (scanline_ppu_mid p).dispstat &&& 0xFFF8 = p.dispstat &&& 0xFFF8 := by
  unfold scanline_ppu_mid ppu_vcount_match ppu_increment_vcount ppu_set_hblank
  have c2 : 2 &&& 0xFFF8 = 0 := by decide
  have c4 : 4 &&& 0xFFF8 = 0 := by decide
  have cd : 65533 &&& 0xFFF8 = 0xFFF8 := by decide
  have cb : 65531 &&& 0xFFF8 = 0xFFF8 := by decide
  simp
  split <;> split <;> simp [or_and_mask, and_and_mask, c2, c4, cd, cb]

theorem mid_lt (p : PPU) (h : p.dispstat < 2 ^ 16) :
    (scanline_ppu_mid p).dispstat < 2 ^ 16 := by
  unfold scanline_ppu_mid ppu_vcount_match ppu_increment_vcount ppu_set_hblank
  simp
  split <;> split <;>
    simp <;>
    first
      | exact Nat.or_lt_two_pow (Nat.or_lt_two_pow (and_lt_two_pow16 _ (Nat.or_lt_two_pow h (by norm_num))) (by norm_num)) (by norm_num)
      | exact Nat.or_lt_two_pow (and_lt_two_pow16 _ (Nat.or_lt_two_pow h (by norm_num))) (by norm_num)
      | exact and_lt_two_pow16 _ (and_lt_two_pow16 _ (Nat.or_lt_two_pow h (by norm_num)))
      | exact and_lt_two_pow16 _ (Nat.or_lt_two_pow h (by norm_num))

theorem mid_vcount (p : PPU) (h : p.vcount + 1 < 2 ^ 16) :
    (scanline_ppu_mid p).vcount =
      if 228 ≤ p.vcount + 1 then 0 else p.vcount + 1 := by
  unfold scanline_ppu_mid ppu_vcount_match ppu_increment_vcount ppu_set_hblank
  simp [u16_of_lt h, TOTAL_LINES]
  split <;> split <;> simp

theorem scanline_ppu_mid_def (p : PPU) :
    (ppu_vcount_match (ppu_increment_vcount
      (ppu_set_hblank (ppu_set_hblank p true) false))).1 = scanline_ppu_mid p := rfl

theorem irq_vblank_fires (p : PPU) (ic : InterruptController) :
    (interrupt_request_if_enabled p ic IRQ_VBLANK).2 = p.dispstat.testBit 3 := by
  unfold interrupt_request_if_enabled IRQ_VBLANK IRQ_HBLANK IRQ_VCOUNT
  cases h : p.dispstat.testBit 3 <;> simp [h]

/-- Ghost record line k of a frame produces (en = VBlank-IRQ enable bit). -/
def c8Rec (en : Bool) (i : Nat) : LineRec :=
  ⟨(i + 1) % 228, decide (160 ≤ i + 1 ∧ i + 1 ≤ 227),
   decide (i + 1 = 160) && en, decide (160 ≤ i + 1)⟩

theorem gba_scanline_inv (d0 k : Nat) (s : GbaFrameSt)
    (hk : k < 228)
    (hv : s.ppu.vcount = k)
    (hb : s.ppu.dispstat < 2 ^ 16)
    (hm : s.ppu.dispstat &&& 0xFFF8 = d0 &&& 0xFFF8)
    (h0 : s.ppu.dispstat.testBit 0 = decide (160 ≤ k ∧ k ≤ 227))
    (hf : s.frame_complete = decide (160 ≤ k)) :
    (gba_scanline s).ppu.vcount = (k + 1) % 228 ∧
    (gba_scanline s).ppu.dispstat < 2 ^ 16 ∧
    (gba_scanline s).ppu.dispstat &&& 0xFFF8 = d0 &&& 0xFFF8 ∧
    (gba_scanline s).ppu.dispstat.testBit 0 = decide (160 ≤ k + 1 ∧ k + 1 ≤ 227) ∧
    (gba_scanline s).frame_complete = decide (160 ≤ k + 1) ∧
    (gba_scanline s).trace = s.trace ++ [c8Rec (d0.testBit 3) k] := by
  have hb1 : s.ppu.vcount + 1 < 2 ^ 16 := by rw [hv]; omega
  have hvA : (scanline_ppu_mid s.ppu).vcount =
      if 228 ≤ k + 1 then 0 else k + 1 := by
    rw [mid_vcount s.ppu hb1, hv]
  have h0A : (scanline_ppu_mid s.ppu).dispstat.testBit 0 =
      decide (160 ≤ k ∧ k ≤ 227) := by rw [mid_bit0, h0]
  have hmA : (scanline_ppu_mid s.ppu).dispstat &&& 0xFFF8 = d0 &&& 0xFFF8 := by
    rw [mid_mask, hm]
  have hbA : (scanline_ppu_mid s.ppu).dispstat < 2 ^ 16 := mid_lt s.ppu hb
  have h3A : (scanline_ppu_mid s.ppu).dispstat.testBit 3 = d0.testBit 3 :=
    mask_testBit3 hmA
  simp only [gba_scanline, scanline_ppu_mid_def]
  by_cases hk159 : k = 159
  · subst hk159
    rw [if_neg (by omega)] at hvA
    simp [hvA, VDRAW_LINES, ppu_set_vblank, irq_vblank_fires, c8Rec]
    refine ⟨?_, ?_, ?_⟩
    · show _ < 2 ^ 16
      exact Nat.or_lt_two_pow hbA (by norm_num)
    · exact (or_and_mask _ 1 65528 (by decide)).trans hmA
    · rw [(show Nat.testBit 1 3 = false from by decide), Bool.or_false]
      exact h3A
  · by_cases hk227 : k = 227
    · subst hk227
      rw [if_pos (by omega)] at hvA
      simp [hvA, VDRAW_LINES, ppu_set_vblank, c8Rec, hf]
      refine ⟨?_, ?_⟩
      · show _ < 2 ^ 16
        exact and_lt_two_pow16 _ hbA
      · exact (and_and_mask _ 65534 65528 (by decide)).trans hmA
    · rw [if_neg (by omega)] at hvA
      simp [hvA, VDRAW_LINES, c8Rec, show ¬(k + 1 = 160) by omega,
        show ¬(k + 1 = 0) by omega, h0A, hf, hmA, hbA]
      have e1 : decide (160 ≤ k) = decide (159 ≤ k) := by
        simp only [decide_eq_decide]; omega
      have e2 : decide (k ≤ 227) = decide (k ≤ 226) := by
        simp only [decide_eq_decide]; omega
      exact ⟨by omega, hbA, by rw [e1, e2], by omega, by omega,
        by rw [e1, e2], by omega⟩

/-- The frame-loop invariant after `k` scanlines (`d0` is the initial
DISPSTAT): VCOUNT is `k mod 228`, DISPSTAT stays 16-bit with bits 3-15
untouched, the VBlank flag tracks line membership in 160..227,
`frame_complete` is set from line 160 on, and the ghost trace lists one
`c8Rec` per completed line. -/
def c8Inv (d0 k : Nat) (s : GbaFrameSt) : Prop :=
  s.ppu.vcount = k % 228 ∧
  s.ppu.dispstat < 2 ^ 16 ∧
  s.ppu.dispstat &&& 0xFFF8 = d0 &&& 0xFFF8 ∧
  s.ppu.dispstat.testBit 0 = decide (160 ≤ k ∧ k ≤ 227) ∧
  s.frame_complete = decide (160 ≤ k) ∧
  s.trace = (List.range k).map (c8Rec (d0.testBit 3))

theorem gba_run_lines_inv (d0 : Nat) :
    ∀ (n j : Nat) (s : GbaFrameSt), j + n ≤ 228 → c8Inv d0 j s →
      c8Inv d0 (j + n) (gba_run_lines n s)
  | 0, j, s, _, hI => by simpa [gba_run_lines] using hI
  | n + 1, j, s, hle, hI => by
    have hj : j < 228 := by omega
    have hv' : s.ppu.vcount = j := by
      have h := hI.1; rwa [Nat.mod_eq_of_lt hj] at h
    obtain ⟨h1, h2, h3, h4, h5, h6⟩ :=
      gba_scanline_inv d0 j s hj hv' hI.2.1 hI.2.2.1 hI.2.2.2.1 hI.2.2.2.2.1
    have hI' : c8Inv d0 (j + 1) (gba_scanline s) := by
      refine ⟨h1, h2, h3, h4, h5, ?_⟩
      rw [h6, hI.2.2.2.2.2, List.range_succ, List.map_append]
      rfl
    have hrec := gba_run_lines_inv d0 n (j + 1) (gba_scanline s) (by omega) hI'
    have heq : j + 1 + n = j + (n + 1) := by omega
    rw [heq] at hrec
    simpa [gba_run_lines] using hrec

set_option maxRecDepth 40000 in
/-- C8: across exactly one `gba_run_frame` call (228 scanline
iterations, starting a frame with VCOUNT = 0 and the VBlank flag clear),
the per-line ghost trace shows: VCOUNT takes each value 0..227 exactly
once; the DISPSTAT VBlank flag is set at the end of a line exactly while
VCOUNT is in 160..227; the VBlank interrupt is requested exactly once —
on the line whose increment reaches VCOUNT = 160 — when DISPSTAT bit 3
enables it, and never otherwise; and `frame_complete` rises exactly once
(false for the first 159 lines, true from line 160 on, true at exit). -/
theorem C8_frame_timing (st : GbaFrameSt) (d0 : Nat)
    (hd : st.ppu.dispstat = d0)
    (hv : st.ppu.vcount = 0)
    (hb : d0 < 2 ^ 16)
    (h0 : d0.testBit 0 = false) :
    (gba_run_frame st).trace = (List.range 228).map (c8Rec (d0.testBit 3)) ∧
    (gba_run_frame st).trace.length = 228 ∧
    (∀ v, v < 228 → ((gba_run_frame st).trace.map LineRec.vcount).count v = 1) ∧
    (∀ r ∈ (gba_run_frame st).trace,
        r.vblank_flag = decide (160 ≤ r.vcount ∧ r.vcount ≤ 227)) ∧
    ((gba_run_frame st).trace.filter (fun r => r.vblank_irq)).length =
      (if d0.testBit 3 then 1 else 0) ∧
    (∀ r ∈ (gba_run_frame st).trace, r.vblank_irq = true →
        r.vcount = 160 ∧ d0.testBit 3 = true) ∧
    (gba_run_frame st).trace.map LineRec.fc =
      (List.range 228).map (fun i => decide (159 ≤ i)) ∧
    (gba_run_frame st).frame_complete = true := by
  have hInv0 : c8Inv d0 0 { st with frame_complete := false, trace := [] } := by
    refine ⟨by simpa using hv, ?_, ?_, ?_, rfl, rfl⟩
    · show st.ppu.dispstat < 2 ^ 16
      rw [hd]; exact hb
    · show st.ppu.dispstat &&& 0xFFF8 = d0 &&& 0xFFF8
      rw [hd]
    · show st.ppu.dispstat.testBit 0 = decide (160 ≤ 0 ∧ 0 ≤ 227)
      rw [hd, h0]; rfl
  have h := gba_run_lines_inv d0 228 0 _ (by omega) hInv0
  have htr : (gba_run_frame st).trace =
      (List.range 228).map (c8Rec (d0.testBit 3)) := by
    have h6 := h.2.2.2.2.2
    simpa [gba_run_frame, TOTAL_LINES] using h6
  have hfc : (gba_run_frame st).frame_complete = true := by
    have h5 := h.2.2.2.2.1
    simpa [gba_run_frame, TOTAL_LINES] using h5
  refine ⟨htr, ?_, ?_, ?_, ?_, ?_, ?_, hfc⟩
  · rw [htr]; simp
  · rw [htr]; cases d0.testBit 3 <;> decide
  · rw [htr]; cases d0.testBit 3 <;> decide
  · rw [htr]; cases hE : d0.testBit 3 <;> decide
  · rw [htr]; cases hE : d0.testBit 3 <;> decide
  · rw [htr]; cases d0.testBit 3 <;> decide

/-- A concrete frame start: VCOUNT 0, DISPSTAT 8 (VBlank IRQ enabled,
status flags clear). -/
def c8St : GbaFrameSt :=
  ⟨⟨0, 8⟩, ⟨false, 0, 0⟩, false, 0, []⟩

set_option maxRecDepth 40000 in
theorem C8_frame_timing_witness :
    ((gba_run_frame c8St).trace.map LineRec.vcount).count 160 = 1 ∧
    ((gba_run_frame c8St).trace.filter (fun r => r.vblank_irq)).length = 1 ∧
    (gba_run_frame c8St).frame_complete = true := by
  have h := C8_frame_timing c8St 8 rfl rfl (by decide) (by decide)
  refine ⟨h.2.2.1 160 (by decide), ?_, h.2.2.2.2.2.2.2⟩
  have h5 := h.2.2.2.2.1
  rw [h5]
  decide
